import Mathlib

/-!
Verification development for the conversational search refinement engine of
the `atrai-backend` repository (`src/natural-query/natural-query.service.ts`).

Strings are modelled as `List Char`.  The two external collaborators are
modelled as oracles passed explicitly to the engine:

* the generative text backend (OpenAI chat completion) as a function
  `LlmSite → List Char` giving the raw response text of each call site
  (context summarization, main draft, relaxation retry) — the source treats
  it as a black-box nondeterministic capability, so the prompt text it
  receives does not constrain its answer;
* the data store (ClickHouse) as a function `List Char → List Row` from the
  executed query text to the returned rows.

Every query-execution and text-generation call the engine makes is recorded
in an event trace, in source order, so that temporal claims (how many
queries run, in which order, which were checked) can be stated.
-/

/-! ## JavaScript-style character and string primitives -/

/-- Left brace character, written via its code point. -/
def lbrace : Char := Char.ofNat 123

/-- Right brace character, written via its code point. -/
def rbrace : Char := Char.ofNat 125

/-- Single-quote character, written via its code point. -/
def squote : Char := Char.ofNat 39

/-- Lower-casing of a single character as JavaScript `toLowerCase` performs it,
restricted to ASCII and the Latin-1 letters — the only alphabets the source's
keywords (`senior`, `sênior`, `experiência`, `anos`, `junior`, `júnior`,
`WHERE`, `ORDER BY`, `LIMIT`, …) use.  Latin-1 uppercase letters
U+00C0–U+00DE (except the multiplication sign U+00D7) map to their lowercase
counterparts 32 code points higher, exactly as in Unicode/JavaScript. -/
def lowChar (c : Char) : Char :=
  if 'A' ≤ c && c ≤ 'Z' then Char.ofNat (c.toNat + 32)
  else if 192 ≤ c.toNat && c.toNat ≤ 222 && c.toNat != 215 then Char.ofNat (c.toNat + 32)
  else c

/-- JavaScript `String.prototype.toLowerCase`, character-wise. -/
def toLowerJS (l : List Char) : List Char := l.map lowChar

/-- Whitespace class used by JavaScript `trim` and by `\s` in regexes
(common subset: space, tab, line feed, carriage return, vertical tab,
form feed, no-break space). -/
def isWsJS (c : Char) : Bool :=
  c == ' ' || c == '\t' || c == '\n' || c == '\r' ||
  c == Char.ofNat 11 || c == Char.ofNat 12 || c == Char.ofNat 160

/-- JavaScript `String.prototype.trim`. -/
def trimJS (l : List Char) : List Char :=
  ((l.dropWhile isWsJS).reverse.dropWhile isWsJS).reverse

/-- ASCII digit test (`\d` in a JavaScript regex without the unicode flag). -/
def isDigitChar (c : Char) : Bool := '0' ≤ c && c ≤ '9'

/-- Whether `l` starts with `pat`, comparing characters through the
normalizer `f` (`id` for exact matching, `lowChar` for the `i` regex flag). -/
def startsWithNorm (f : Char → Char) (pat l : List Char) : Bool :=
  (l.take pat.length).map f == pat.map f

/-- Whether `pat` occurs (contiguously) somewhere in `l`, comparing
characters through the normalizer `f`. -/
def hasMatchNorm (f : Char → Char) (pat : List Char) : List Char → Bool
  | [] => startsWithNorm f pat []
  | c :: rest => startsWithNorm f pat (c :: rest) || hasMatchNorm f pat rest

/-- JavaScript `String.prototype.includes` (case-sensitive substring test). -/
def containsSubstr (l pat : List Char) : Bool := hasMatchNorm id pat l

/-- First case-insensitive occurrence of `pat` in a string, split as
(text before the match, matched text, text after the match). -/
def splitFirstCI (pat : List Char) : List Char → Option (List Char × List Char × List Char)
  | [] => none
  | c :: rest =>
    if startsWithNorm lowChar pat (c :: rest) then
      some ([], (c :: rest).take pat.length, (c :: rest).drop pat.length)
    else
      match splitFirstCI pat rest with
      | some (b, m, a) => some (c :: b, m, a)
      | none => none

/-! ## Literal string constants from the source -/

/-- Keyword `senior` scanned for in negative feedback reasons. -/
def kSenior : List Char := "senior".toList

/-- Keyword `sênior` scanned for in negative feedback reasons. -/
def kSenior2 : List Char := "sênior".toList

/-- Keyword `experiência` scanned for in negative feedback reasons. -/
def kExperiencia : List Char := "experiência".toList

/-- Keyword `anos` scanned for in negative feedback reasons. -/
def kAnos : List Char := "anos".toList

/-- Keyword `junior` scanned for in negative feedback reasons. -/
def kJunior : List Char := "junior".toList

/-- Keyword `júnior` scanned for in negative feedback reasons. -/
def kJunior2 : List Char := "júnior".toList

/-- The pattern `where`, matched case-insensitively by `split(/WHERE/i)`. -/
def kWhere : List Char := "where".toList

/-- The pattern `order by`, matched case-insensitively by the enforcer's
`replace(/(ORDER BY|LIMIT)/i, ...)`. -/
def kOrderBy : List Char := "order by".toList

/-- The pattern `limit`, matched case-insensitively by the enforcer's
`replace(/(ORDER BY|LIMIT)/i, ...)`. -/
def kLimit : List Char := "limit".toList

/-- Keyword `seniority` used to recognize the seniority-related mandatory
filters among the critical-filter directives. -/
def kSeniority : List Char := "seniority".toList

/-- Lower-cased query keyword `estagiario`, one of the four tokens whose
presence in the drafted query satisfies the seniority constraint check. -/
def kEstagiario : List Char := "estagiario".toList

/-- Lower-cased query keyword `trainee`. -/
def kTrainee : List Char := "trainee".toList

/-- Lower-cased query keyword `analista`. -/
def kAnalista : List Char := "analista".toList

/-- Lower-cased query keyword `seniority_order`. -/
def kSeniorityOrder : List Char := "seniority_order".toList

/-! ## Regex scan for the `\d+\s*anos` pattern -/

/-- Whether the lower-cased reason matches the regex `/\d+\s*anos/`:
some position starts one or more ASCII digits, then optional whitespace,
then the literal `anos`.  Maximal munch of the digit and whitespace runs is
equivalent to the backtracking regex here because the three character
classes (digit, whitespace, the letter `a`) are disjoint. -/
def matchesYears : List Char → Bool
  | [] => false
  | c :: rest =>
    (isDigitChar c &&
      startsWithNorm id kAnos ((rest.dropWhile isDigitChar).dropWhile isWsJS)) ||
    matchesYears rest

/-! ## A JSON value model and a `JSON.parse` model

The source parses backend responses with JavaScript `JSON.parse`.  The
parser below implements the JSON grammar (RFC 8259) over `List Char` with an
explicit fuel argument so that every definition is structurally recursive
and kernel-evaluable.  Numeric literals are kept as their raw character
sequence — no claim depends on numeric values inside the parsed payload.
Unicode escapes outside the valid `Char` range fall back to the null
character; duplicate object keys follow JavaScript's last-wins rule at
field lookup. -/

/-- JSON values. -/
inductive Json where
  | null : Json
  | bool (b : Bool) : Json
  | num (lit : List Char) : Json
  | str (s : List Char) : Json
  | arr (elems : List Json) : Json
  | obj (fields : List (List Char × Json)) : Json

/-- JSON whitespace (the only four characters `JSON.parse` skips). -/
def isJsonWs (c : Char) : Bool := c == ' ' || c == '\t' || c == '\n' || c == '\r'

/-- Skip JSON whitespace. -/
def skipWs (l : List Char) : List Char := l.dropWhile isJsonWs

/-- Hexadecimal digit value, if any. -/
def hexVal (c : Char) : Option Nat :=
  if '0' ≤ c && c ≤ '9' then some (c.toNat - 48)
  else if 'a' ≤ c && c ≤ 'f' then some (c.toNat - 87)
  else if 'A' ≤ c && c ≤ 'F' then some (c.toNat - 55)
  else none

/-- Parse the body of a JSON string (the opening quote already consumed),
returning the decoded characters and the rest of the input after the
closing quote.  Raw control characters are rejected, as `JSON.parse` does. -/
def parseStrBody : Nat → List Char → Option (List Char × List Char)
  | 0, _ => none
  | _ + 1, [] => none
  | fuel + 1, c :: rest =>
    if c == '"' then some ([], rest)
    else if c == '\\' then
      match rest with
      | [] => none
      | e :: rest2 =>
        if e == '"' then (parseStrBody fuel rest2).map (fun p => ('"' :: p.1, p.2))
        else if e == '\\' then (parseStrBody fuel rest2).map (fun p => ('\\' :: p.1, p.2))
        else if e == '/' then (parseStrBody fuel rest2).map (fun p => ('/' :: p.1, p.2))
        else if e == 'b' then (parseStrBody fuel rest2).map (fun p => (Char.ofNat 8 :: p.1, p.2))
        else if e == 'f' then (parseStrBody fuel rest2).map (fun p => (Char.ofNat 12 :: p.1, p.2))
        else if e == 'n' then (parseStrBody fuel rest2).map (fun p => ('\n' :: p.1, p.2))
        else if e == 'r' then (parseStrBody fuel rest2).map (fun p => ('\r' :: p.1, p.2))
        else if e == 't' then (parseStrBody fuel rest2).map (fun p => ('\t' :: p.1, p.2))
        else if e == 'u' then
          match rest2 with
          | h1 :: h2 :: h3 :: h4 :: rest6 =>
            match hexVal h1, hexVal h2, hexVal h3, hexVal h4 with
            | some v1, some v2, some v3, some v4 =>
              (parseStrBody fuel rest6).map
                (fun p => (Char.ofNat (((v1 * 16 + v2) * 16 + v3) * 16 + v4) :: p.1, p.2))
            | _, _, _, _ => none
          | _ => none
        else none
    else if c.toNat < 32 then none
    else (parseStrBody fuel rest).map (fun p => (c :: p.1, p.2))

/-- Parse a JSON numeric literal (returned as raw characters) per the JSON
grammar: optional minus, integer part without leading zeros, optional
fraction, optional exponent. -/
def parseNum (l : List Char) : Option (List Char × List Char) :=
  let (sign, l1) := match l with
    | c :: rest => if c == '-' then ([c], rest) else ([], l)
    | [] => ([], l)
  match l1 with
  | [] => none
  | d :: rest =>
    if !(isDigitChar d) then none
    else
      let (ip, l2) :=
        if d == '0' then ([d], rest)
        else (d :: rest.takeWhile isDigitChar, rest.dropWhile isDigitChar)
      let (fp, l3) := match l2 with
        | p :: f :: r2 =>
          if p == '.' && isDigitChar f then
            (p :: f :: r2.takeWhile isDigitChar, r2.dropWhile isDigitChar)
          else ([], l2)
        | _ => ([], l2)
      let (ep, l4) := match l3 with
        | e :: r3 =>
          if e == 'e' || e == 'E' then
            let (es, r4) := match r3 with
              | s :: r5 => if s == '+' || s == '-' then ([s], r5) else ([], r3)
              | [] => ([], r3)
            match r4 with
            | d2 :: r6 =>
              if isDigitChar d2 then
                (e :: es ++ d2 :: r6.takeWhile isDigitChar, r6.dropWhile isDigitChar)
              else ([], l3)
            | [] => ([], l3)
          else ([], l3)
        | [] => ([], l3)
      some (sign ++ ip ++ fp ++ ep, l4)

/-- Parsing mode: a single value, object fields (just after `{` or after a
comma), or array elements. -/
inductive PMode where
  | value : PMode
  | objFirst : PMode
  | objMember : PMode
  | arrFirst : PMode
  | arrElem : PMode

/-- Recursive-descent JSON parser with fuel.  In the object/array modes the
returned `Json` is the `.obj`/`.arr` of the remaining fields/elements. -/
def parseF : Nat → PMode → List Char → Option (Json × List Char)
  | 0, _, _ => none
  | fuel + 1, PMode.value, l =>
    match skipWs l with
    | [] => none
    | c :: rest =>
      if c == lbrace then parseF fuel PMode.objFirst rest
      else if c == '[' then parseF fuel PMode.arrFirst rest
      else if c == '"' then
        match parseStrBody (rest.length + 1) rest with
        | some (s, r) => some (Json.str s, r)
        | none => none
      else if c == 't' then
        match rest with
        | 'r' :: 'u' :: 'e' :: r => some (Json.bool true, r)
        | _ => none
      else if c == 'f' then
        match rest with
        | 'a' :: 'l' :: 's' :: 'e' :: r => some (Json.bool false, r)
        | _ => none
      else if c == 'n' then
        match rest with
        | 'u' :: 'l' :: 'l' :: r => some (Json.null, r)
        | _ => none
      else
        match parseNum (c :: rest) with
        | some (lit, r) => some (Json.num lit, r)
        | none => none
  | fuel + 1, PMode.objFirst, l =>
    match skipWs l with
    | c :: rest =>
      if c == rbrace then some (Json.obj [], rest)
      else parseF fuel PMode.objMember l
    | [] => none
  | fuel + 1, PMode.objMember, l =>
    match skipWs l with
    | c :: rest =>
      if c == '"' then
        match parseStrBody (rest.length + 1) rest with
        | some (k, r) =>
          match skipWs r with
          | c2 :: r2 =>
            if c2 == ':' then
              match parseF fuel PMode.value r2 with
              | some (v, r3) =>
                match skipWs r3 with
                | c3 :: r4 =>
                  if c3 == ',' then
                    match parseF fuel PMode.objMember r4 with
                    | some (Json.obj fs, r5) => some (Json.obj ((k, v) :: fs), r5)
                    | _ => none
                  else if c3 == rbrace then some (Json.obj [(k, v)], r4)
                  else none
                | [] => none
              | none => none
            else none
          | [] => none
        | none => none
      else none
    | [] => none
  | fuel + 1, PMode.arrFirst, l =>
    match skipWs l with
    | c :: rest =>
      if c == ']' then some (Json.arr [], rest)
      else parseF fuel PMode.arrElem l
    | [] => none
  | fuel + 1, PMode.arrElem, l =>
    match parseF fuel PMode.value l with
    | some (v, r) =>
      match skipWs r with
      | c :: r2 =>
        if c == ',' then
          match parseF fuel PMode.arrElem r2 with
          | some (Json.arr vs, r3) => some (Json.arr (v :: vs), r3)
          | _ => none
        else if c == ']' then some (Json.arr [v], r2)
        else none
      | [] => none
    | none => none

/-- Model of JavaScript `JSON.parse`: parse one JSON value and require only
whitespace after it; `none` models a thrown `SyntaxError`.  The fuel
`3 * (length + 1)` dominates the parser's step count, in which each step
either consumes a character or moves through one of the at most three
intermediate modes between characters. -/
def parseJson (l : List Char) : Option Json :=
  match parseF (3 * (l.length + 1)) PMode.value l with
  | some (v, rest) => if (skipWs rest).isEmpty then some v else none
  | none => none

/-- The fallback span extraction `content.match(/\{[\s\S]*\})/` of the
source: the greedy regex takes everything from the first `{` to the last
`}` (provided that `}` comes after the `{`), or fails. -/
def extractBraceSpan (l : List Char) : Option (List Char) :=
  match l.dropWhile (fun c => c != lbrace) with
  | [] => none
  | b :: tail =>
    if ((tail.reverse.dropWhile (fun c => c != rbrace)).reverse).isEmpty then none
    else some (b :: (tail.reverse.dropWhile (fun c => c != rbrace)).reverse)

/-- Field access `parsed.k` on a parse result, for string-valued fields.
JavaScript gives the last binding of a duplicated key; a missing key, a
non-object payload, or a non-string value yields `none` (the latter is a
deliberate restriction: every field the source reads out of a draft is used
as a string). -/
def getStrField (j : Json) (key : List Char) : Option (List Char) :=
  match j with
  | Json.obj fields =>
    match (fields.filter (fun kv => kv.1 == key)).getLast? with
    | some (_, Json.str s) => some s
    | _ => none
  | _ => none

/-! ## Data model (from `dto/query.dto.ts` and the service) -/

/-- Role of a dialogue turn. -/
inductive Role where
  | user : Role
  | assistant : Role
deriving DecidableEq

/-- One dialogue turn (`MessageDto`). -/
structure Msg where
  role : Role
  content : List Char
deriving DecidableEq

/-- One structured like/dislike feedback record (`ProfileFeedbackDto`). -/
structure ProfileFeedback where
  profileId : List Char
  profileName : List Char
  interesting : Bool
  reason : Option (List Char)
deriving DecidableEq

/-- A data-store row.  The engine observes rows only through their number
and, for count queries, the `total` column, so that column is the only one
modelled (`none` = the column is absent/undefined). -/
structure Row where
  total : Option Int
deriving DecidableEq

/-! ## Criteria Extractor (`extractCriticalFilters`, lines 355–400) -/

/-- The lower-cased reason of a feedback entry: `(f.reason || '').toLowerCase()`. -/
def lowReason (f : ProfileFeedback) : List Char := toLowerJS (f.reason.getD [])

/-- The "too senior" keyword family test applied to a lower-cased reason. -/
def isSeniorReason (r : List Char) : Bool :=
  containsSubstr r kSenior || containsSubstr r kSenior2 ||
  containsSubstr r kExperiencia || containsSubstr r kAnos

/-- The "too junior" keyword family test applied to a lower-cased reason. -/
def isJuniorReason (r : List Char) : Bool :=
  containsSubstr r kJunior || containsSubstr r kJunior2

/-- First mandatory directive emitted for repeated "too senior" feedback. -/
def kFilterSenior1 : List Char :=
  "OBRIGATÓRIO: Use apenas seniority IN (\x27ESTAGIARIO / TRAINEE\x27, \x27ANALISTA\x27) - O recrutador NÃO quer perfis senior/especialista/gerente".toList

/-- Second mandatory directive emitted for repeated "too senior" feedback. -/
def kFilterSenior2 : List Char :=
  "OBRIGATÓRIO: Adicione filtro seniority_order <= 2 para garantir apenas perfis júnior".toList

/-- Directive emitted for repeated years-of-experience feedback. -/
def kFilterYears : List Char :=
  "EVITE perfis com muitos anos de experiência mencionados no headline ou cargo".toList

/-- The Criteria Extractor: partitions the feedback into negative entries,
counts, per entry, membership of the lower-cased reason in the
senior/junior/years keyword families, and emits the mandatory directives
when the senior (respectively years) count reaches two.  `juniorMentions`
is computed by the source but feeds nothing. -/
def extractCriticalFilters (profileFeedback : List ProfileFeedback) : List (List Char) :=
  let notInteresting := profileFeedback.filter (fun f => !f.interesting)
  if notInteresting.length = 0 then []
  else
    let seniorMentions := notInteresting.countP (fun f => isSeniorReason (lowReason f))
    let juniorMentions := notInteresting.countP (fun f => isJuniorReason (lowReason f))
    let experienceMentions := notInteresting.countP (fun f => matchesYears (lowReason f))
    (if 2 ≤ seniorMentions then [kFilterSenior1, kFilterSenior2] else []) ++
    (if 2 ≤ experienceMentions then [kFilterYears] else [])

/-! ## Constraint Enforcer (inline block of `conversationalSearch`, lines 626–649) -/

/-- Splitting on every case-insensitive occurrence of `where`
(`sql.split(/WHERE/i)`), with fuel for structural recursion; each split
consumes five characters, so `length + 1` fuel always suffices. -/
def splitWhereIF : Nat → List Char → List (List Char)
  | 0, l => [l]
  | fuel + 1, l =>
    match splitFirstCI kWhere l with
    | none => [l]
    | some (b, _, a) => b :: splitWhereIF fuel a

/-- JavaScript `sql.split(/WHERE/i)`. -/
def splitWhereI (l : List Char) : List (List Char) := splitWhereIF (l.length + 1) l

/-- Whether a case-insensitive match of `ORDER BY` or `LIMIT` starts here. -/
def matchOL (l : List Char) : Bool :=
  startsWithNorm lowChar kOrderBy l || startsWithNorm lowChar kLimit l

/-- JavaScript `sql.replace(/(ORDER BY|LIMIT)/i, ')$1')`: insert a closing
parenthesis before the first case-insensitive occurrence of `ORDER BY` or
`LIMIT`, keeping the matched text; no occurrence leaves the string
unchanged. -/
def replaceOrderLimit : List Char → List Char
  | [] => []
  | c :: rest => if matchOL (c :: rest) then ')' :: c :: rest else c :: replaceOrderLimit rest

/-- The text spliced in front of the original filter clause by the
mechanical patch. -/
def kSeniorityPatch : List Char :=
  "WHERE (seniority IN (\x27ESTAGIARIO / TRAINEE\x27, \x27ANALISTA\x27) OR seniority_order <= 2) AND (".toList

/-- The keyword-presence check of the enforcer: the lower-cased query
already names one of the junior tiers or the `seniority_order` column. -/
def hasSeniorityKeyword (sqlLower : List Char) : Bool :=
  containsSubstr sqlLower kEstagiario || containsSubstr sqlLower kTrainee ||
  containsSubstr sqlLower kAnalista || containsSubstr sqlLower kSeniorityOrder

/-- The Constraint Enforcer: when critical filters are present, a
seniority directive is among them and the query lacks every seniority
keyword, split at `WHERE`; if that yields exactly two parts, splice the
canonical seniority predicate in front of the filter clause and re-close
the opened group before the first `ORDER BY`/`LIMIT`; otherwise the query
is returned unmodified. -/
def enforceCriticalFilters (criticalFilters : List (List Char)) (sql : List Char) : List Char :=
  if 0 < criticalFilters.length then
    if (criticalFilters.any fun f => containsSubstr f kSeniority) &&
        !(criticalFilters.any fun f =>
          containsSubstr f kSeniority && hasSeniorityKeyword (toLowerJS sql)) then
      match splitWhereI sql with
      | [p0, p1] => replaceOrderLimit (p0 ++ kSeniorityPatch ++ p1)
      | _ => sql
    else sql
  else sql

/-! ## Query Drafting Engine response parsing -/

/-- Key `sql` of the drafted payload. -/
def kSqlKey : List Char := "sql".toList

/-- Key `countSql` of the drafted payload. -/
def kCountSqlKey : List Char := "countSql".toList

/-- Key `explanation` of the drafted payload. -/
def kExplanationKey : List Char := "explanation".toList

/-- Key `assistantMessage` of the drafted payload. -/
def kAssistantMessageKey : List Char := "assistantMessage".toList

/-- Key `searchCriteria` of the drafted payload. -/
def kSearchCriteriaKey : List Char := "searchCriteria".toList

/-- The structured draft read out of a parsed backend response.  Every
field is optional: `none` models a missing (undefined) field. -/
structure Draft where
  sql : Option (List Char)
  countSql : Option (List Char)
  explanation : Option (List Char)
  assistantMessage : Option (List Char)
  searchCriteria : Option (List Char)
deriving DecidableEq

/-- Read the five string fields the service uses out of a parsed value. -/
def draftOfJson (j : Json) : Draft :=
  { sql := getStrField j kSqlKey
    countSql := getStrField j kCountSqlKey
    explanation := getStrField j kExplanationKey
    assistantMessage := getStrField j kAssistantMessageKey
    searchCriteria := getStrField j kSearchCriteriaKey }

/-- Two-tier parsing of the main draft (lines 608–619): strict
`JSON.parse` first; on failure, extract the first-to-last brace span and
parse that; `none` when both tiers fail (= the turn aborts). -/
def parseDraftMain (content : List Char) : Option Draft :=
  match parseJson content with
  | some j => some (draftOfJson j)
  | none =>
    match extractBraceSpan content with
    | some sp => (parseJson sp).map draftOfJson
    | none => none

/-- Parsing of the relaxation retry response (lines 684–686): the source
here tries the brace span first and falls back to the whole content
(`retryContent.match(/\{[\s\S]*\})?.[0] || retryContent`); a failure is
caught and keeps the original result. -/
def parseDraftRetry (content : List Char) : Option Draft :=
  match extractBraceSpan content with
  | some sp => (parseJson sp).map draftOfJson
  | none => (parseJson content).map draftOfJson

/-! ## Conversational search turn -/

/-- The generative-backend call sites of one turn. -/
inductive LlmSite where
  | summarize : LlmSite
  | draft : LlmSite
  | retry : LlmSite
deriving DecidableEq

/-- What a data-store query execution was, by call site: the
interesting-profile details lookup, the enforced original draft query, the
relaxed retry query, or the count query. -/
inductive QueryKind where
  | details : QueryKind
  | main : QueryKind
  | retry : QueryKind
  | count : QueryKind
deriving DecidableEq

/-- One external call made during a turn, in source order. -/
inductive Event where
  | llm (site : LlmSite) : Event
  | db (kind : QueryKind) (query : List Char) : Event
deriving DecidableEq

/-- The two fatal error kinds of a turn: the backend returned no content,
no structured payload could be extracted, or the payload lacks `sql`. -/
inductive TurnError where
  | noContent : TurnError
  | unparsable : TurnError
  | noSql : TurnError
deriving DecidableEq

/-- The `ConversationResult` returned to the caller. -/
structure ConversationResult where
  query : List Char
  explanation : Option (List Char)
  data : List Row
  totalRows : Int
  assistantMessage : Option (List Char)
  searchCriteria : Option (List Char)
deriving DecidableEq

/-- Head of the interesting-profile details query (template literal of
lines 433–438). -/
def kDetailsHead : List Char :=
  "SELECT profile_id, full_name, headline, current_job_title, current_company, \n                      seniority, area, macroarea, city, state, \n                      experience, education, certifications\n               FROM linkedin.people \n               WHERE profile_id IN (".toList

/-- Tail of the interesting-profile details query. -/
def kDetailsTail : List Char := ")\n               LIMIT 10".toList

/-- Separator of the joined profile-id list. -/
def kCommaSpace : List Char := ", ".toList

/-- The details query run over the profiles marked interesting:
`WHERE profile_id IN ('id1', 'id2', ...) LIMIT 10`. -/
def detailsQuery (profileFeedback : List ProfileFeedback) : List Char :=
  kDetailsHead ++
  List.intercalate kCommaSpace
    ((profileFeedback.filter (fun f => f.interesting)).map
      (fun f => squote :: (f.profileId ++ [squote]))) ++
  kDetailsTail

/-- External calls made before the main drafting response is inspected:
the details lookup when at least two profiles are marked interesting
(its nested guards `profileFeedback.length > 0` and `interesting.length > 0`
are implied), the summarization call when the dialogue exceeds six turns,
and the main drafting call itself.  The summarizer's and details rows'
values only shape prompt text, which the oracle model abstracts over. -/
def preEvents (conversationHistory : List Msg) (profileFeedback : List ProfileFeedback) : List Event :=
  (if 2 ≤ (profileFeedback.filter (fun f => f.interesting)).length then
    [Event.db QueryKind.details (detailsQuery profileFeedback)]
  else []) ++
  (if 6 < conversationHistory.length then [Event.llm LlmSite.summarize] else []) ++
  [Event.llm LlmSite.draft]

/-- Substring `relaxe` checked before prefixing the relaxation disclosure. -/
def kRelaxe : List Char := "relaxe".toList

/-- Substring `ampli` checked before prefixing the relaxation disclosure. -/
def kAmpli : List Char := "ampli".toList

/-- The disclosure prefixed to the assistant message of an adopted relaxed
draft. -/
def kRelaxDisclosure : List Char :=
  "⚠️ A busca original era muito restritiva e não encontrou resultados. Relaxei alguns critérios para trazer candidatos.\n\n".toList

/-- The disclosure step on an adopted relaxed draft (lines 697–702): when
the message mentions neither `relaxe` nor `ampli`, prefix the disclosure; a
missing message makes the source's `.includes` call throw inside the catch
block, leaving the adopted draft unmodified. -/
def adjustMessage (rd : Draft) : Draft :=
  match rd.assistantMessage with
  | none => rd
  | some am =>
    if !containsSubstr am kRelaxe && !containsSubstr am kAmpli then
      { rd with assistantMessage := some (kRelaxDisclosure ++ am) }
    else rd

/-- The Empty-Result Relaxation Controller (lines 656–709): when the
executed data is empty, call the drafting backend once more; if the
response is non-empty, parses (brace span first) and carries a non-empty
`sql`, execute that relaxed query as parsed — without re-running the
Constraint Enforcer — and adopt its draft and rows only when non-empty.
Every other outcome keeps the original draft, query and (empty) data.
Returns (new events, draft, query text, rows). -/
def relaxStage (llm : LlmSite → List Char) (db : List Char → List Row)
    (draft : Draft) (sqlE : List Char) (data : List Row) :
    List Event × Draft × List Char × List Row :=
  if data.length = 0 then
    if (trimJS (llm LlmSite.retry)).isEmpty then
      ([Event.llm LlmSite.retry], draft, sqlE, data)
    else
      match parseDraftRetry (trimJS (llm LlmSite.retry)) with
      | none => ([Event.llm LlmSite.retry], draft, sqlE, data)
      | some rd =>
        match rd.sql with
        | none => ([Event.llm LlmSite.retry], draft, sqlE, data)
        | some rs =>
          if rs.isEmpty then ([Event.llm LlmSite.retry], draft, sqlE, data)
          else if (db rs).length = 0 then
            ([Event.llm LlmSite.retry, Event.db QueryKind.retry rs], draft, sqlE, data)
          else
            ([Event.llm LlmSite.retry, Event.db QueryKind.retry rs], adjustMessage rd, rs, db rs)
  else ([], draft, sqlE, data)

/-- The count step of the Result Assembler (lines 711–725): when the
(possibly relaxed) draft carries a non-empty `countSql`, execute it; a
first row with a defined `total` column overrides the sample row count. -/
def countStage (db : List Char → List Row) (draft : Draft) (data : List Row) :
    List Event × Int :=
  match draft.countSql with
  | none => ([], (data.length : Int))
  | some cs =>
    if cs.isEmpty then ([], (data.length : Int))
    else
      match (db cs).head? with
      | none => ([Event.db QueryKind.count cs], (data.length : Int))
      | some r =>
        match r.total with
        | none => ([Event.db QueryKind.count cs], (data.length : Int))
        | some t => ([Event.db QueryKind.count cs], t)

/-- Everything after a successfully drafted, enforced query `sqlE`:
execute it, run the relaxation controller on the outcome, run the count
step, and assemble the `ConversationResult` (lines 651–735). -/
def postDraft (llm : LlmSite → List Char) (db : List Char → List Row)
    (conversationHistory : List Msg) (profileFeedback : List ProfileFeedback)
    (draft : Draft) (sqlE : List Char) :
    List Event × Except TurnError ConversationResult :=
  match relaxStage llm db draft sqlE (db sqlE) with
  | (revs, d2, sql2, data2) =>
    match countStage db d2 data2 with
    | (cevs, total) =>
      (preEvents conversationHistory profileFeedback ++
        [Event.db QueryKind.main sqlE] ++ revs ++ cevs,
       Except.ok
         { query := sql2
           explanation := d2.explanation
           data := data2
           totalRows := total
           assistantMessage := d2.assistantMessage
           searchCriteria := d2.searchCriteria })

/-- One turn of `conversationalSearch` (lines 402–735), returning the
event trace of its external calls and either a fatal error or the
assembled result.  The drafted response is trimmed; an empty content, a
doubly-unparsable content, and a missing or empty `sql` field abort the
turn.  Otherwise the query is checked once by the Constraint Enforcer and
executed, with relaxation and count handling as modelled above. -/
def conversationalSearch (llm : LlmSite → List Char) (db : List Char → List Row)
    (message : List Char) (conversationHistory : List Msg)
    (profileFeedback : List ProfileFeedback) :
    List Event × Except TurnError ConversationResult :=
  if (trimJS (llm LlmSite.draft)).isEmpty then
    (preEvents conversationHistory profileFeedback, Except.error TurnError.noContent)
  else
    match parseDraftMain (trimJS (llm LlmSite.draft)) with
    | none => (preEvents conversationHistory profileFeedback, Except.error TurnError.unparsable)
    | some draft =>
      match draft.sql with
      | none => (preEvents conversationHistory profileFeedback, Except.error TurnError.noSql)
      | some s =>
        if s.isEmpty then
          (preEvents conversationHistory profileFeedback, Except.error TurnError.noSql)
        else
          postDraft llm db conversationHistory profileFeedback draft
            (enforceCriticalFilters (extractCriticalFilters profileFeedback) s)

/-! ## Derived predicates used by the claim statements -/

/-- Whether a turn outcome is a fatal error. -/
def isErrResult : Except TurnError ConversationResult → Bool
  | Except.error _ => true
  | Except.ok _ => false

/-- The fatal-draft condition on the trimmed main response: empty content,
no extractable structured payload, or a missing/empty `sql` field. -/
def fatalDraft (c : List Char) : Bool :=
  c.isEmpty ||
  match parseDraftMain c with
  | none => true
  | some d =>
    match d.sql with
    | none => true
    | some s => s.isEmpty

/-- Event test: any data-store query execution. -/
def isDbExec : Event → Bool
  | Event.db _ _ => true
  | _ => false

/-- Event test: execution of the enforced original draft query. -/
def isMainExec : Event → Bool
  | Event.db QueryKind.main _ => true
  | _ => false

/-- Event test: execution of the relaxed draft query. -/
def isRetryExec : Event → Bool
  | Event.db QueryKind.retry _ => true
  | _ => false

/-- Event test: execution of the count query. -/
def isCountExec : Event → Bool
  | Event.db QueryKind.count _ => true
  | _ => false

/-- Event test: the relaxation drafting call to the generative backend. -/
def isRetryDraftCall : Event → Bool
  | Event.llm LlmSite.retry => true
  | _ => false

/-- Event test: the main drafting call to the generative backend. -/
def isDraftCall : Event → Bool
  | Event.llm LlmSite.draft => true
  | _ => false

/-- Number of negative feedback entries whose lower-cased reason matches
the "too senior" keyword family. -/
def seniorMentionCount (profileFeedback : List ProfileFeedback) : Nat :=
  (profileFeedback.filter (fun f => !f.interesting)).countP
    (fun f => isSeniorReason (lowReason f))

/-- Number of negative feedback entries whose lower-cased reason matches
the `\d+\s*anos` pattern. -/
def yearsMentionCount (profileFeedback : List ProfileFeedback) : Nat :=
  (profileFeedback.filter (fun f => !f.interesting)).countP
    (fun f => matchesYears (lowReason f))

/-! ## Concrete inputs for counterexamples and witnesses -/

/-- Sample profile id. -/
def kId1 : List Char := "id-001".toList

/-- Sample profile id. -/
def kId2 : List Char := "id-002".toList

/-- Sample profile id. -/
def kId3 : List Char := "id-003".toList

/-- Sample profile name. -/
def kAlpha : List Char := "Alpha".toList

/-- Sample profile name. -/
def kBeta : List Char := "Beta".toList

/-- Sample profile name. -/
def kGamma : List Char := "Gamma".toList

/-- Negative-feedback reason `muito senior`. -/
def kMuitoSenior : List Char := "muito senior".toList

/-- Negative-feedback reason `muito júnior`. -/
def kMuitoJunior : List Char := "muito júnior".toList

/-- Feedback set with two negative `muito senior` entries: the seniority
constraints are mandatory for it. -/
def fbTooSenior : List ProfileFeedback :=
  [⟨kId1, kAlpha, false, some kMuitoSenior⟩, ⟨kId2, kBeta, false, some kMuitoSenior⟩]

/-- `fbTooSenior` with its two entries swapped. -/
def fbTooSeniorRev : List ProfileFeedback :=
  [⟨kId2, kBeta, false, some kMuitoSenior⟩, ⟨kId1, kAlpha, false, some kMuitoSenior⟩]

/-- Feedback set with exactly one negative `muito senior` entry. -/
def fbOneSenior : List ProfileFeedback :=
  [⟨kId1, kAlpha, false, some kMuitoSenior⟩]

/-- Feedback set with three negative `muito júnior` entries and nothing
else. -/
def fbJunior3 : List ProfileFeedback :=
  [⟨kId1, kAlpha, false, some kMuitoJunior⟩, ⟨kId2, kBeta, false, some kMuitoJunior⟩,
   ⟨kId3, kGamma, false, some kMuitoJunior⟩]

/-- Feedback set with two interesting entries (triggers the details
lookup). -/
def fbInteresting2 : List ProfileFeedback :=
  [⟨kId1, kAlpha, true, none⟩, ⟨kId2, kBeta, true, none⟩]

/-- A data store that returns no rows for any query. -/
def dbEmpty : List Char → List Row := fun _ => []

/-- A row without a `total` column. -/
def rowPlain : Row := ⟨none⟩

/-- A row whose `total` column is 42. -/
def rowTotal42 : Row := ⟨some 42⟩

/-- Main draft response used by the C1 scenario: a valid payload whose
query has a `WHERE` clause, a `LIMIT`, and no seniority keyword. -/
def kC1DraftContent : List Char :=
  "\x7b\"sql\": \"SELECT profile_id FROM linkedin.people WHERE city = \x27SAO PAULO\x27 LIMIT 7\", \"explanation\": \"busca por cidade\", \"assistantMessage\": \"Encontrei candidatos\", \"searchCriteria\": \"cidade\"\x7d".toList

/-- The `sql` field of `kC1DraftContent`. -/
def kC1OrigSql : List Char :=
  "SELECT profile_id FROM linkedin.people WHERE city = \x27SAO PAULO\x27 LIMIT 7".toList

/-- Relaxed draft response used by the C1 scenario: again a `WHERE` clause
and no seniority keyword. -/
def kC1RetryContent : List Char :=
  "\x7b\"sql\": \"SELECT profile_id FROM linkedin.people WHERE city = \x27RIO DE JANEIRO\x27 LIMIT 7\", \"assistantMessage\": \"Ampliei a busca\"\x7d".toList

/-- The `sql` field of `kC1RetryContent`. -/
def kC1RetrySql : List Char :=
  "SELECT profile_id FROM linkedin.people WHERE city = \x27RIO DE JANEIRO\x27 LIMIT 7".toList

/-- Backend oracle for the C1 scenario. -/
def llmC1 : LlmSite → List Char := fun s =>
  match s with
  | LlmSite.draft => kC1DraftContent
  | LlmSite.retry => kC1RetryContent
  | LlmSite.summarize => []

/-- Data-store oracle for the C1 scenario: only the relaxed query finds a
row, so the relaxed draft is adopted. -/
def dbC1 : List Char → List Row := fun q => if q = kC1RetrySql then [rowPlain] else []

/-- Main draft response used by the C2 scenario: carries a `countSql`. -/
def kC2DraftContent : List Char :=
  "\x7b\"sql\": \"SELECT 1\", \"countSql\": \"SELECT COUNT(*) as total FROM linkedin.people\"\x7d".toList

/-- The `countSql` field of `kC2DraftContent`. -/
def kC2CountSql : List Char := "SELECT COUNT(*) as total FROM linkedin.people".toList

/-- Relaxed draft response used by the C2 scenario. -/
def kC2RetryContent : List Char := "\x7b\"sql\": \"SELECT 2\"\x7d".toList

/-- Backend oracle for the C2 scenario. -/
def llmC2 : LlmSite → List Char := fun s =>
  match s with
  | LlmSite.draft => kC2DraftContent
  | LlmSite.retry => kC2RetryContent
  | LlmSite.summarize => []

/-- Data-store oracle for the C2 scenario: both candidate queries are
empty, the count query answers 42. -/
def dbC2 : List Char → List Row := fun q => if q = kC2CountSql then [rowTotal42] else []

/-- Unparsable main draft response used by the C6 scenario. -/
def kC6Content : List Char := "sem payload estruturado aqui".toList

/-- Backend oracle for the C6 scenario. -/
def llmC6 : LlmSite → List Char := fun s =>
  match s with
  | LlmSite.draft => kC6Content
  | LlmSite.summarize => []
  | LlmSite.retry => []

/-- Main draft response used by the C7 scenario. -/
def kC7DraftContent : List Char :=
  "\x7b\"sql\": \"SELECT profile_id FROM linkedin.people LIMIT 7\", \"explanation\": \"busca ampla\", \"assistantMessage\": \"Seguem os perfis\", \"searchCriteria\": \"perfil\"\x7d".toList

/-- The `sql` field of `kC7DraftContent`. -/
def kC7Sql : List Char := "SELECT profile_id FROM linkedin.people LIMIT 7".toList

/-- Relaxed draft response used by the C7 scenario. -/
def kC7RetryContent : List Char :=
  "\x7b\"sql\": \"SELECT profile_id FROM linkedin.people LIMIT 50\", \"assistantMessage\": \"Relaxei os criterios\"\x7d".toList

/-- The `sql` field of `kC7RetryContent`. -/
def kC7RetrySql : List Char := "SELECT profile_id FROM linkedin.people LIMIT 50".toList

/-- Backend oracle for the C7 scenario. -/
def llmC7 : LlmSite → List Char := fun s =>
  match s with
  | LlmSite.draft => kC7DraftContent
  | LlmSite.retry => kC7RetryContent
  | LlmSite.summarize => []

/-- Prose before the JSON object in the C8 scenario. -/
def kC8Pre : List Char := "Claro! Segue o resultado: ".toList

/-- Contents between the braces of the JSON object in the C8 scenario. -/
def kC8Mid : List Char := "\"sql\": \"SELECT 1\"".toList

/-- Prose after the JSON object in the C8 scenario. -/
def kC8Post : List Char := " Espero que ajude.".toList

/-- The value the C8 object parses to. -/
def kC8Val : Json := (parseJson (lbrace :: (kC8Mid ++ [rbrace]))).getD Json.null

/-- A query with two case-insensitive `WHERE` occurrences, a filter clause,
and no seniority keyword: the enforcer's split yields three parts and no
patch happens. -/
def kC4TwoWhereSql : List Char :=
  "SELECT profile_id FROM (SELECT profile_id FROM linkedin.people WHERE area = \x27DADOS\x27) WHERE city = \x27SAO PAULO\x27 LIMIT 7".toList

/-- A query with one `WHERE`, no `ORDER BY`/`LIMIT`, balanced parentheses,
and no seniority keyword. -/
def kC9Sql : List Char :=
  "SELECT profile_id FROM linkedin.people WHERE city = \x27CURITIBA\x27".toList

/-- The part of `kC9Sql` before its `WHERE`. -/
def kC9P0 : List Char := "SELECT profile_id FROM linkedin.people ".toList

/-- The part of `kC9Sql` after its `WHERE`. -/
def kC9P1 : List Char := " city = \x27CURITIBA\x27".toList

/-- A query already containing a seniority keyword. -/
def kC4KeywordSql : List Char :=
  "SELECT profile_id FROM linkedin.people WHERE seniority_order <= 2 LIMIT 7".toList

/-! ## Auxiliary decidable checks about the enforcer's patch text -/

/-- Whether a case-insensitive `ORDER BY` or `LIMIT` occurs anywhere. -/
def hasOrderLimit (l : List Char) : Bool :=
  hasMatchNorm lowChar kOrderBy l || hasMatchNorm lowChar kLimit l

/-- Whether a case-insensitive match of `pat` could begin at the start of
`s` when arbitrary text follows `s`: either a complete match inside `s`,
or all of `s` matches a proper prefix of `pat`. -/
def partialCI (pat s : List Char) : Bool :=
  if pat.length ≤ s.length then startsWithNorm lowChar pat s
  else s.map lowChar == (pat.take s.length).map lowChar

/-- Decidable check that no `ORDER BY`/`LIMIT` match can begin at any
position of the patch text, whatever follows it. -/
def insSafe : Bool :=
  (List.range kSeniorityPatch.length).all (fun j =>
    !(partialCI kOrderBy (kSeniorityPatch.drop j)) &&
    !(partialCI kLimit (kSeniorityPatch.drop j)))

/-- Decidable check that no proper tail of `pat` is a case-insensitive
prefix of the patch text (so no match of `pat` can straddle into it). -/
def tailSafe (pat : List Char) : Bool :=
  (List.range pat.length).all (fun k =>
    k == 0 || !(startsWithNorm lowChar (pat.drop k) kSeniorityPatch))

/-! ## Criteria Extractor lemmas and claims -/

/-- Closed form of the Criteria Extractor: the early return for an empty
negative subset coincides with the general threshold formula. -/
theorem extractCriticalFilters_eq (fb : List ProfileFeedback) :
    extractCriticalFilters fb =
      (if 2 ≤ seniorMentionCount fb then [kFilterSenior1, kFilterSenior2] else []) ++
      (if 2 ≤ yearsMentionCount fb then [kFilterYears] else []) := by
  unfold extractCriticalFilters seniorMentionCount yearsMentionCount
  by_cases h : (fb.filter (fun f => !f.interesting)).length = 0
  · have hnil : fb.filter (fun f => !f.interesting) = [] := List.length_eq_zero.mp h
    simp [h, hnil]
  · simp [h]

/-- Distinctness of the emitted directive strings. -/
theorem kFilterSenior1_ne_years : kFilterSenior1 ≠ kFilterYears := by decide

/-- Distinctness of the emitted directive strings. -/
theorem kFilterSenior2_ne_years : kFilterSenior2 ≠ kFilterYears := by decide

/-- C3: the Criteria Extractor emits both seniority constraints exactly
when at least two negative entries have a reason matching the "too senior"
keyword family, and with exactly one matching negative reason it emits no
seniority constraint. -/
theorem c3_theorem (fb : List ProfileFeedback) :
    ((kFilterSenior1 ∈ extractCriticalFilters fb ∧
      kFilterSenior2 ∈ extractCriticalFilters fb) ↔ 2 ≤ seniorMentionCount fb) ∧
    (seniorMentionCount fb = 1 →
      kFilterSenior1 ∉ extractCriticalFilters fb ∧
      kFilterSenior2 ∉ extractCriticalFilters fb) := by
  have key : ∀ (hn : ¬ 2 ≤ seniorMentionCount fb),
      kFilterSenior1 ∉ extractCriticalFilters fb ∧
      kFilterSenior2 ∉ extractCriticalFilters fb := by
    intro hn
    rw [extractCriticalFilters_eq, if_neg hn]
    by_cases hy : 2 ≤ yearsMentionCount fb
    · rw [if_pos hy]
      simp [kFilterSenior1_ne_years, kFilterSenior2_ne_years]
    · rw [if_neg hy]
      simp
  constructor
  · constructor
    · intro hmem
      by_contra hn
      exact (key hn).1 hmem.1
    · intro hs
      rw [extractCriticalFilters_eq, if_pos hs]
      simp
  · intro h1
    exact key (by omega)

/-- Witness for C3 at a concrete feedback set with exactly one "too
senior" negative reason. -/
theorem c3_witness :
    kFilterSenior1 ∉ extractCriticalFilters fbOneSenior ∧
    kFilterSenior2 ∉ extractCriticalFilters fbOneSenior :=
  (c3_theorem fbOneSenior).2 (by decide)

/-- C5: the Criteria Extractor is a pure function of the feedback set —
recomputing on the same list gives the identical ordered constraint list,
and permuting the feedback entries leaves the constraint list unchanged. -/
theorem c5_theorem (l₁ l₂ : List ProfileFeedback) (h : l₁.Perm l₂) :
    extractCriticalFilters l₁ = extractCriticalFilters l₁ ∧
    extractCriticalFilters l₁ = extractCriticalFilters l₂ := by
  refine ⟨rfl, ?_⟩
  have hs : seniorMentionCount l₁ = seniorMentionCount l₂ := by
    unfold seniorMentionCount
    exact (h.filter _).countP_eq _
  have hy : yearsMentionCount l₁ = yearsMentionCount l₂ := by
    unfold yearsMentionCount
    exact (h.filter _).countP_eq _
  rw [extractCriticalFilters_eq, extractCriticalFilters_eq, hs, hy]

/-- Witness for C5 at a concrete permuted pair of feedback sets. -/
theorem c5_witness :
    extractCriticalFilters fbTooSenior = extractCriticalFilters fbTooSeniorRev :=
  (c5_theorem fbTooSenior fbTooSeniorRev (by decide)).2

/-- C10: when every negative reason matches only the "too junior" family
(no "too senior" keyword and no `\d+\s*anos` pattern), the Criteria
Extractor returns the empty constraint list, however many entries match. -/
theorem c10_theorem (fb : List ProfileFeedback)
    (h : ∀ f ∈ fb, f.interesting = false →
      isJuniorReason (lowReason f) = true ∧ isSeniorReason (lowReason f) = false ∧
      matchesYears (lowReason f) = false) :
    extractCriticalFilters fb = [] := by
  have hs : seniorMentionCount fb = 0 := by
    unfold seniorMentionCount
    rw [List.countP_eq_zero]
    intro f hf
    have hmem := List.mem_filter.mp hf
    have hint : f.interesting = false := by
      have := hmem.2
      simpa using this
    simp [(h f hmem.1 hint).2.1]
  have hy : yearsMentionCount fb = 0 := by
    unfold yearsMentionCount
    rw [List.countP_eq_zero]
    intro f hf
    have hmem := List.mem_filter.mp hf
    have hint : f.interesting = false := by
      have := hmem.2
      simpa using this
    simp [(h f hmem.1 hint).2.2]
  rw [extractCriticalFilters_eq, hs, hy]
  simp

/-- Witness for C10 at a feedback set with three "too junior" negatives. -/
theorem c10_witness : extractCriticalFilters fbJunior3 = [] :=
  c10_theorem fbJunior3 (by decide)

/-! ## Two-tier response parsing (C8) -/

/-- Dropping over an append whose left part is entirely dropped. -/
theorem dropWhile_append_all {α : Type} {p : α → Bool} {a b : List α}
    (h : ∀ c ∈ a, p c = true) : (a ++ b).dropWhile p = b.dropWhile p := by
  induction a with
  | nil => rfl
  | cons c cs ih =>
    have hc : p c = true := h c (by simp)
    have ih' := ih (fun x hx => h x (by simp [hx]))
    simp [List.dropWhile_cons, hc, ih']

/-- The greedy fallback regex extracts exactly the object when the
surrounding prose contains no brace characters. -/
theorem extractBraceSpan_eq (p₁ mid p₂ : List Char)
    (h₁ : ∀ c ∈ p₁, c ≠ lbrace ∧ c ≠ rbrace)
    (h₂ : ∀ c ∈ p₂, c ≠ lbrace ∧ c ≠ rbrace) :
    extractBraceSpan (p₁ ++ (lbrace :: (mid ++ [rbrace])) ++ p₂) =
      some (lbrace :: (mid ++ [rbrace])) := by
  have hd1 : (p₁ ++ (lbrace :: (mid ++ [rbrace])) ++ p₂).dropWhile (fun c => c != lbrace) =
      lbrace :: ((mid ++ [rbrace]) ++ p₂) := by
    rw [List.append_assoc]
    rw [dropWhile_append_all (fun c hc => by simp [(h₁ c hc).1])]
    rw [List.cons_append]
    simp [List.dropWhile_cons]
  have hy : ((((mid ++ [rbrace]) ++ p₂).reverse).dropWhile (fun c => c != rbrace)).reverse =
      mid ++ [rbrace] := by
    rw [List.reverse_append]
    have hrev : (mid ++ [rbrace]).reverse = rbrace :: mid.reverse := by simp
    rw [hrev]
    rw [dropWhile_append_all (fun c hc => by
      have : c ∈ p₂ := List.mem_reverse.mp hc
      simp [(h₂ c this).2])]
    simp [List.dropWhile_cons]
  unfold extractBraceSpan
  rw [hd1]
  simp only [hy]
  simp

/-- C8: a raw backend text that is brace-free prose around one
brace-delimited object parsing as `v` and failing the strict parse is
handled by the two tiers: the fallback extracts exactly that object and the
draft is read out of its parse. -/
theorem c8_theorem (p₁ mid p₂ : List Char) (v : Json)
    (h₁ : ∀ c ∈ p₁, c ≠ lbrace ∧ c ≠ rbrace)
    (h₂ : ∀ c ∈ p₂, c ≠ lbrace ∧ c ≠ rbrace)
    (hv : parseJson (lbrace :: (mid ++ [rbrace])) = some v)
    (hs : parseJson (p₁ ++ (lbrace :: (mid ++ [rbrace])) ++ p₂) = none) :
    extractBraceSpan (p₁ ++ (lbrace :: (mid ++ [rbrace])) ++ p₂) =
      some (lbrace :: (mid ++ [rbrace])) ∧
    parseDraftMain (p₁ ++ (lbrace :: (mid ++ [rbrace])) ++ p₂) =
      some (draftOfJson v) := by
  have hx := extractBraceSpan_eq p₁ mid p₂ h₁ h₂
  refine ⟨hx, ?_⟩
  unfold parseDraftMain
  simp only [hs, hx, hv, Option.map_some']

/-- Witness for C8 at a concrete prose-wrapped response. -/
theorem c8_witness :
    extractBraceSpan (kC8Pre ++ (lbrace :: (kC8Mid ++ [rbrace])) ++ kC8Post) =
      some (lbrace :: (kC8Mid ++ [rbrace])) ∧
    parseDraftMain (kC8Pre ++ (lbrace :: (kC8Mid ++ [rbrace])) ++ kC8Post) =
      some (draftOfJson kC8Val) :=
  c8_theorem kC8Pre kC8Mid kC8Post kC8Val (by decide) (by decide) rfl rfl

/-! ## Substring-matching machinery -/

/-- A successful prefix match needs the pattern to fit. -/
theorem startsWithNorm_length {f : Char → Char} {pat l : List Char}
    (h : startsWithNorm f pat l = true) : pat.length ≤ l.length := by
  unfold startsWithNorm at h
  have heq := eq_of_beq h
  have hlen := congrArg List.length heq
  simp [List.length_take] at hlen
  omega

/-- A prefix match that fits in the left part of an append ignores the
right part. -/
theorem startsWithNorm_append_of_le {f : Char → Char} {pat a : List Char} (b : List Char)
    (h : pat.length ≤ a.length) :
    startsWithNorm f pat (a ++ b) = startsWithNorm f pat a := by
  unfold startsWithNorm
  rw [List.take_append_of_le_length h]

/-- A prefix match that overruns the left part of an append splits into a
partial match of the left part and a match of the pattern's tail. -/
theorem startsWithNorm_append_split {f : Char → Char} {pat s t : List Char}
    (hlt : s.length < pat.length) (h : startsWithNorm f pat (s ++ t) = true) :
    s.map f = (pat.take s.length).map f ∧
    startsWithNorm f (pat.drop s.length) t = true := by
  unfold startsWithNorm at h
  have heq := eq_of_beq h
  rw [List.take_append_eq_append_take] at heq
  rw [List.take_of_length_le (by omega)] at heq
  rw [List.map_append] at heq
  have hpat : pat.map f = (pat.take s.length).map f ++ (pat.drop s.length).map f := by
    rw [← List.map_append, List.take_append_drop]
  rw [hpat] at heq
  have hinj := List.append_inj heq (by
    simp [List.length_take]
    omega)
  constructor
  · exact hinj.1
  · unfold startsWithNorm
    apply beq_iff_eq.mpr
    have h2 := hinj.2
    rw [List.length_drop]
    exact h2

/-- Occurrence is preserved by prepending a character. -/
theorem hasMatchNorm_cons {f : Char → Char} {pat l : List Char} (c : Char)
    (h : hasMatchNorm f pat l = true) : hasMatchNorm f pat (c :: l) = true := by
  simp [hasMatchNorm, h]

/-- Occurrence in the right part of an append. -/
theorem hasMatchNorm_append_left {f : Char → Char} {pat b : List Char} (a : List Char)
    (h : hasMatchNorm f pat b = true) : hasMatchNorm f pat (a ++ b) = true := by
  induction a with
  | nil => simpa
  | cons c cs ih => simpa using hasMatchNorm_cons c ih

/-- Occurrence in the left part of an append. -/
theorem hasMatchNorm_append_right {f : Char → Char} {pat a : List Char} (b : List Char)
    (h : hasMatchNorm f pat a = true) : hasMatchNorm f pat (a ++ b) = true := by
  induction a with
  | nil =>
    have hpat : pat.map f = [] := by
      have := eq_of_beq (show startsWithNorm f pat [] = true from h)
      simpa using this.symm
    cases b with
    | nil => simpa using h
    | cons c cs =>
      show (startsWithNorm f pat (c :: cs) || _) = true
      have : startsWithNorm f pat (c :: cs) = true := by
        unfold startsWithNorm
        apply beq_iff_eq.mpr
        have hlen : pat.length = 0 := by simpa using congrArg List.length hpat
        simp [hlen, hpat]
      simp [this]
  | cons c cs ih =>
    have h' : startsWithNorm f pat (c :: cs) = true ∨ hasMatchNorm f pat cs = true := by
      simpa [hasMatchNorm] using h
    rcases h' with hs | hrest
    · have hle : pat.length ≤ (c :: cs).length := startsWithNorm_length hs
      show (startsWithNorm f pat ((c :: cs) ++ b) || _) = true
      rw [startsWithNorm_append_of_le b hle, hs]
      rfl
    · simpa using hasMatchNorm_cons c (ih hrest)

/-- A prefix match at some position gives an occurrence. -/
theorem hasMatchNorm_of_drop {f : Char → Char} {pat l : List Char} {j : Nat}
    (h : startsWithNorm f pat (l.drop j) = true) : hasMatchNorm f pat l = true := by
  induction l generalizing j with
  | nil =>
    simpa [hasMatchNorm] using (by simpa using h : startsWithNorm f pat [] = true)
  | cons c cs ih =>
    cases j with
    | zero =>
      have h0 : startsWithNorm f pat (c :: cs) = true := by simpa using h
      simp [hasMatchNorm, h0]
    | succ j' =>
      have := ih (j := j') (by simpa using h)
      simpa using hasMatchNorm_cons c this

/-- A match of `ORDER BY` or `LIMIT` at some position means the string has
one. -/
theorem hasOrderLimit_of_drop {l : List Char} {j : Nat}
    (h : matchOL (l.drop j) = true) : hasOrderLimit l = true := by
  have h2 : startsWithNorm lowChar kOrderBy (l.drop j) = true ∨
      startsWithNorm lowChar kLimit (l.drop j) = true := by
    simpa [matchOL] using h
  unfold hasOrderLimit
  rcases h2 with h' | h'
  · simp [hasMatchNorm_of_drop h']
  · simp [hasMatchNorm_of_drop h']

/-- Contrapositive of `hasOrderLimit_of_drop`. -/
theorem matchOL_drop_false {l : List Char} (h : hasOrderLimit l = false) (j : Nat) :
    matchOL (l.drop j) = false := by
  by_contra habs
  rw [Bool.not_eq_false] at habs
  rw [hasOrderLimit_of_drop habs] at h
  exact absurd h (by simp)

/-! ## Behaviour of the mechanical `ORDER BY`/`LIMIT` re-close step -/

/-- With no match anywhere, the replace is the identity. -/
theorem replaceOrderLimit_id {l : List Char} (h : ∀ j, matchOL (l.drop j) = false) :
    replaceOrderLimit l = l := by
  induction l with
  | nil => rfl
  | cons c cs ih =>
    have h0 : matchOL (c :: cs) = false := by simpa using h 0
    have ih' := ih (fun j => by simpa using h (j + 1))
    simp [replaceOrderLimit, h0, ih']

/-- A left part at none of whose positions a match can begin is copied
verbatim by the replace. -/
theorem replaceOrderLimit_append (a b : List Char)
    (h : ∀ j, j < a.length → matchOL (a.drop j ++ b) = false) :
    replaceOrderLimit (a ++ b) = a ++ replaceOrderLimit b := by
  induction a with
  | nil => rfl
  | cons c cs ih =>
    have h0 : matchOL (c :: (cs ++ b)) = false := by simpa using h 0 (by simp)
    have ih' := ih (fun j hj => by simpa using h (j + 1) (by simpa using Nat.succ_lt_succ hj))
    show replaceOrderLimit (c :: (cs ++ b)) = _
    simp [replaceOrderLimit, h0, ih']

/-- Elimination form of `partialCI`: if it is false, no match of `pat` can
begin at the start of `s`, whatever follows. -/
theorem partialCI_false {pat s : List Char} (h : partialCI pat s = false) (b : List Char) :
    startsWithNorm lowChar pat (s ++ b) = false := by
  unfold partialCI at h
  by_cases hle : pat.length ≤ s.length
  · rw [if_pos hle] at h
    rw [startsWithNorm_append_of_le b hle]
    exact h
  · rw [if_neg hle] at h
    by_contra habs
    rw [Bool.not_eq_false] at habs
    have hsp := startsWithNorm_append_split (by omega) habs
    have hbeq : (s.map lowChar == (pat.take s.length).map lowChar) = true :=
      beq_iff_eq.mpr hsp.1
    rw [hbeq] at h
    exact absurd h (by simp)

/-- The decidable patch-safety check holds. -/
theorem insSafe_true : insSafe = true := by decide

/-- No proper tail of `order by` is a case-insensitive prefix of the patch
text. -/
theorem tailSafe_orderBy : tailSafe kOrderBy = true := by decide

/-- No proper tail of `limit` is a case-insensitive prefix of the patch
text. -/
theorem tailSafe_limit : tailSafe kLimit = true := by decide

/-- No `ORDER BY`/`LIMIT` match begins inside the patch text, whatever
follows it. -/
theorem insSafe_elim (b : List Char) :
    ∀ j, j < kSeniorityPatch.length → matchOL (kSeniorityPatch.drop j ++ b) = false := by
  intro j hj
  have hall := insSafe_true
  unfold insSafe at hall
  rw [List.all_eq_true] at hall
  have hj' := hall j (List.mem_range.mpr hj)
  have hj2 : partialCI kOrderBy (kSeniorityPatch.drop j) = false ∧
      partialCI kLimit (kSeniorityPatch.drop j) = false := by
    constructor
    · rcases Bool.and_eq_true_iff.mp hj' with ⟨h1, _⟩
      simpa using h1
    · rcases Bool.and_eq_true_iff.mp hj' with ⟨_, h2⟩
      simpa using h2
  unfold matchOL
  rw [partialCI_false hj2.1 b, partialCI_false hj2.2 b]
  rfl

/-- The patch text is copied verbatim by the replace step. -/
theorem replaceOrderLimit_patch (b : List Char) :
    replaceOrderLimit (kSeniorityPatch ++ b) = kSeniorityPatch ++ replaceOrderLimit b :=
  replaceOrderLimit_append _ _ (insSafe_elim b)

/-- The patch text contains the junior-tier restriction keyword
(case-insensitively). -/
theorem estag_in_patch : hasMatchNorm lowChar kEstagiario kSeniorityPatch = true := by decide

/-- After the replace step, a query of the form
`prefix ++ patch ++ suffix` still contains the junior-tier keyword. -/
theorem estag_in_replace (a b : List Char) :
    hasMatchNorm lowChar kEstagiario (replaceOrderLimit (a ++ (kSeniorityPatch ++ b))) = true := by
  induction a with
  | nil =>
    rw [List.nil_append, replaceOrderLimit_patch]
    exact hasMatchNorm_append_right _ estag_in_patch
  | cons c cs ih =>
    by_cases hm : matchOL (c :: (cs ++ (kSeniorityPatch ++ b))) = true
    · show hasMatchNorm lowChar kEstagiario
        (replaceOrderLimit (c :: (cs ++ (kSeniorityPatch ++ b)))) = true
      rw [show replaceOrderLimit (c :: (cs ++ (kSeniorityPatch ++ b))) =
          ')' :: c :: (cs ++ (kSeniorityPatch ++ b)) from by simp [replaceOrderLimit, hm]]
      apply hasMatchNorm_cons
      apply hasMatchNorm_cons
      exact hasMatchNorm_append_left _ (hasMatchNorm_append_right _ estag_in_patch)
    · have hm' : matchOL (c :: (cs ++ (kSeniorityPatch ++ b))) = false := by
        simpa using hm
      show hasMatchNorm lowChar kEstagiario
        (replaceOrderLimit (c :: (cs ++ (kSeniorityPatch ++ b)))) = true
      rw [show replaceOrderLimit (c :: (cs ++ (kSeniorityPatch ++ b))) =
          c :: replaceOrderLimit (cs ++ (kSeniorityPatch ++ b)) from by
        simp [replaceOrderLimit, hm']]
      exact hasMatchNorm_cons c ih

/-! ## Lower-casing bridge -/

/-- Matching through `lowChar` equals exact matching on the lower-cased
string, for an already-lower-case pattern (prefix version). -/
theorem startsWithNorm_map_low (pat l : List Char) (hp : pat.map lowChar = pat) :
    startsWithNorm id pat (l.map lowChar) = startsWithNorm lowChar pat l := by
  unfold startsWithNorm
  rw [List.map_id]
  rw [← List.map_take]
  rw [hp]
  simp

/-- Matching through `lowChar` equals exact matching on the lower-cased
string, for an already-lower-case pattern. -/
theorem containsSubstr_toLower (pat l : List Char) (hp : pat.map lowChar = pat) :
    containsSubstr (toLowerJS l) pat = hasMatchNorm lowChar pat l := by
  unfold containsSubstr toLowerJS
  induction l with
  | nil =>
    show hasMatchNorm id pat [] = hasMatchNorm lowChar pat []
    unfold hasMatchNorm
    exact startsWithNorm_map_low pat [] hp
  | cons c cs ih =>
    show hasMatchNorm id pat (lowChar c :: cs.map lowChar) = hasMatchNorm lowChar pat (c :: cs)
    unfold hasMatchNorm
    rw [show (lowChar c :: cs.map lowChar) = (c :: cs).map lowChar from rfl]
    rw [startsWithNorm_map_low pat (c :: cs) hp]
    rw [ih]

/-! ## Splitting at `WHERE` -/

/-- What a successful first split means: the string decomposes around a
five-character case-insensitive `where`. -/
theorem splitFirstCI_spec {pat l b m a : List Char}
    (h : splitFirstCI pat l = some (b, m, a)) :
    l = b ++ m ++ a ∧ startsWithNorm lowChar pat m = true ∧ m.length = pat.length := by
  induction l generalizing b with
  | nil => simp [splitFirstCI] at h
  | cons c rest ih =>
    unfold splitFirstCI at h
    by_cases hs : startsWithNorm lowChar pat (c :: rest) = true
    · rw [if_pos hs] at h
      have hb : b = [] ∧ (c :: rest).take pat.length = m ∧ (c :: rest).drop pat.length = a := by
        simpa using h
      obtain ⟨hb1, hb2, hb3⟩ := hb
      subst hb1; subst hb2; subst hb3
      refine ⟨by simp, ?_, ?_⟩
      · unfold startsWithNorm at hs ⊢
        rw [List.take_take, min_self]
        exact hs
      · have hle := startsWithNorm_length hs
        simp [List.length_cons] at hle
        simp [List.length_take, List.length_cons]
        omega
    · rw [if_neg hs] at h
      cases hrec : splitFirstCI pat rest with
      | none => rw [hrec] at h; simp at h
      | some bma =>
        obtain ⟨b', m', a'⟩ := bma
        rw [hrec] at h
        have hb : c :: b' = b ∧ m' = m ∧ a' = a := by simpa using h
        obtain ⟨hb1, hb2, hb3⟩ := hb
        subst hb1; subst hb2; subst hb3
        obtain ⟨hl, hm, hlen⟩ := ih hrec
        exact ⟨by simp [hl], hm, hlen⟩

/-- `splitWhereIF` never returns the empty list. -/
theorem splitWhereIF_ne_nil (fuel : Nat) (l : List Char) : splitWhereIF fuel l ≠ [] := by
  cases fuel with
  | zero => simp [splitWhereIF]
  | succ n =>
    unfold splitWhereIF
    cases splitFirstCI kWhere l with
    | none => simp
    | some bma => obtain ⟨b, m, a⟩ := bma; simp

/-- A two-part `split(/WHERE/i)` result decomposes the query around a
single case-insensitive `where`, with no further occurrence in the tail. -/
theorem splitWhereI_two {sql p0 p1 : List Char} (h : splitWhereI sql = [p0, p1]) :
    ∃ m, sql = p0 ++ m ++ p1 ∧ startsWithNorm lowChar kWhere m = true ∧
      m.length = 5 ∧ splitFirstCI kWhere p1 = none := by
  unfold splitWhereI at h
  rw [splitWhereIF] at h
  cases hfp : splitFirstCI kWhere sql with
  | none => rw [hfp] at h; simp at h
  | some bma =>
    obtain ⟨b, m, a⟩ := bma
    rw [hfp] at h
    have h2 : b = p0 ∧ splitWhereIF sql.length a = [p1] := by simpa using h
    obtain ⟨hb, hrest⟩ := h2
    subst hb
    obtain ⟨hl, hm, hlen⟩ := splitFirstCI_spec hfp
    have hlen5 : m.length = 5 := by simpa [kWhere] using hlen
    have hslen : 5 ≤ sql.length := by
      have := congrArg List.length hl
      simp at this
      omega
    obtain ⟨n', hn⟩ : ∃ n', sql.length = n' + 1 := ⟨sql.length - 1, by omega⟩
    rw [hn, splitWhereIF] at hrest
    cases hfa : splitFirstCI kWhere a with
    | none =>
      rw [hfa] at hrest
      have ha : a = p1 := by simpa using hrest
      subst ha
      exact ⟨m, hl, hm, hlen5, hfa⟩
    | some bma2 =>
      obtain ⟨b2, m2, a2⟩ := bma2
      rw [hfa] at hrest
      have : splitWhereIF n' a2 = [] := by
        have h3 : b2 = p1 ∧ splitWhereIF n' a2 = [] := by simpa using hrest
        exact h3.2
      exact absurd this (splitWhereIF_ne_nil n' a2)

/-! ## Constraint Enforcer case analysis -/

/-- When the drafted query already carries one of the seniority keywords
(case-insensitively), the enforcer leaves it unchanged, whatever the
constraint list. -/
theorem enforce_keyword_present (fs : List (List Char)) (sql : List Char)
    (h : hasSeniorityKeyword (toLowerJS sql) = true) :
    enforceCriticalFilters fs sql = sql := by
  unfold enforceCriticalFilters
  by_cases hfs : 0 < fs.length
  · rw [if_pos hfs]
    have hsame : (fs.any fun f => containsSubstr f kSeniority &&
        hasSeniorityKeyword (toLowerJS sql)) = fs.any fun f => containsSubstr f kSeniority := by
      simp [h]
    rw [hsame]
    simp
  · rw [if_neg hfs]

/-- When a seniority directive is mandatory, the keyword is absent and the
split yields exactly two parts, the enforcer produces the patched,
re-closed query. -/
theorem enforce_patch (fs : List (List Char)) (sql p0 p1 : List Char)
    (hactive : (fs.any fun f => containsSubstr f kSeniority) = true)
    (habsent : hasSeniorityKeyword (toLowerJS sql) = false)
    (hsplit : splitWhereI sql = [p0, p1]) :
    enforceCriticalFilters fs sql = replaceOrderLimit (p0 ++ kSeniorityPatch ++ p1) := by
  unfold enforceCriticalFilters
  have hfs : 0 < fs.length := by
    cases fs with
    | nil => simp at hactive
    | cons a l => simp
  rw [if_pos hfs]
  have hno : (fs.any fun f => containsSubstr f kSeniority &&
      hasSeniorityKeyword (toLowerJS sql)) = false := by
    simp [habsent]
  rw [hno, hactive]
  simp only [Bool.not_false, Bool.and_true, if_true]
  rw [hsplit]

/-! ## Claim C4 — Constraint Enforcer behaviour -/

/-- C4 as amended: (a) a draft already containing a canonical seniority
keyword (case-insensitively) is left unchanged by the enforcer — no
duplication; (b) when the seniority constraints are active, the keyword is
absent and the query has exactly one case-insensitive `WHERE` occurrence,
the enforced query text contains the junior-tier restriction keyword. -/
theorem c4_theorem (fs : List (List Char)) (sql : List Char) :
    (hasSeniorityKeyword (toLowerJS sql) = true → enforceCriticalFilters fs sql = sql) ∧
    ((fs.any fun f => containsSubstr f kSeniority) = true →
      hasSeniorityKeyword (toLowerJS sql) = false →
      (splitWhereI sql).length = 2 →
      containsSubstr (toLowerJS (enforceCriticalFilters fs sql)) kEstagiario = true) := by
  constructor
  · intro h
    exact enforce_keyword_present fs sql h
  · intro hact habs hlen
    obtain ⟨p0, p1, hsplit⟩ := List.length_eq_two.mp hlen
    rw [enforce_patch fs sql p0 p1 hact habs hsplit]
    rw [containsSubstr_toLower _ _ (by decide)]
    rw [List.append_assoc]
    exact estag_in_replace p0 p1

/-- C4 as frozen is false: this query has a filter (`WHERE`) clause and no
seniority keyword, the seniority constraints are active, yet the enforcer
leaves it unchanged (its two case-insensitive `WHERE` occurrences defeat
the two-part split), so the enforced text lacks the junior-tier
restriction. -/
theorem c4_counterexample :
    ((extractCriticalFilters fbTooSenior).any fun f => containsSubstr f kSeniority) = true ∧
    hasSeniorityKeyword (toLowerJS kC4TwoWhereSql) = false ∧
    hasMatchNorm lowChar kWhere kC4TwoWhereSql = true ∧
    enforceCriticalFilters (extractCriticalFilters fbTooSenior) kC4TwoWhereSql =
      kC4TwoWhereSql ∧
    containsSubstr
      (toLowerJS (enforceCriticalFilters (extractCriticalFilters fbTooSenior) kC4TwoWhereSql))
      kEstagiario = false := by
  refine ⟨by decide, by decide, by decide, by decide, by decide⟩

/-- Witness for C4 at concrete queries: one already carrying
`seniority_order` (left unchanged), one with a single `WHERE` (patched to
contain the junior-tier keyword). -/
theorem c4_witness :
    enforceCriticalFilters (extractCriticalFilters fbTooSenior) kC4KeywordSql =
      kC4KeywordSql ∧
    containsSubstr
      (toLowerJS (enforceCriticalFilters (extractCriticalFilters fbTooSenior) kC9Sql))
      kEstagiario = true := by
  constructor
  · exact (c4_theorem (extractCriticalFilters fbTooSenior) kC4KeywordSql).1 (by decide)
  · exact (c4_theorem (extractCriticalFilters fbTooSenior) kC9Sql).2
      (by decide) (by decide) (by decide)

/-! ## Claim C9 — the unbalanced parenthesis of the mechanical patch -/

/-- No proper tail of a safe pattern matches at the start of the patch
text followed by anything. -/
theorem tailSafe_elim (pat : List Char) (ht : tailSafe pat = true)
    (hlen : pat.length ≤ kSeniorityPatch.length) (b : List Char)
    (k : Nat) (hk0 : 0 < k) (hk : k < pat.length) :
    startsWithNorm lowChar (pat.drop k) (kSeniorityPatch ++ b) = false := by
  have hle : (pat.drop k).length ≤ kSeniorityPatch.length := by
    simp [List.length_drop]
    omega
  rw [startsWithNorm_append_of_le b hle]
  unfold tailSafe at ht
  rw [List.all_eq_true] at ht
  have h2 := ht k (List.mem_range.mpr hk)
  have hk0' : (k == 0) = false := by
    simp
    omega
  rw [hk0'] at h2
  simpa using h2

/-- No match of `pat` can begin inside a prefix that contains no match,
when no proper tail of `pat` matches at the start of what follows. -/
theorem no_start_in_pre {pat p0 : List Char} (b : List Char)
    (hp0 : hasMatchNorm lowChar pat p0 = false)
    (htail : ∀ k, 0 < k → k < pat.length → startsWithNorm lowChar (pat.drop k) b = false)
    (j : Nat) (hj : j < p0.length) :
    startsWithNorm lowChar pat (p0.drop j ++ b) = false := by
  by_contra habs
  rw [Bool.not_eq_false] at habs
  by_cases hle : pat.length ≤ (p0.drop j).length
  · rw [startsWithNorm_append_of_le b hle] at habs
    rw [hasMatchNorm_of_drop habs] at hp0
    exact absurd hp0 (by simp)
  · have hlt : (p0.drop j).length < pat.length := by omega
    have hsp := startsWithNorm_append_split hlt habs
    have hk0 : 0 < (p0.drop j).length := by
      simp [List.length_drop]
      omega
    have hfalse := htail (p0.drop j).length hk0 hlt
    rw [hfalse] at hsp
    exact absurd hsp.2 (by simp)

/-- A five-character case-insensitive `where` contains no parenthesis. -/
theorem ci_where_no_paren {m : List Char} (h : startsWithNorm lowChar kWhere m = true)
    (hlen : m.length = 5) :
    m.count '(' = 0 ∧ m.count ')' = 0 := by
  have heq : m.map lowChar = kWhere.map lowChar := by
    have h2 := eq_of_beq h
    rw [show kWhere.length = 5 from rfl, ← hlen, List.take_length] at h2
    exact h2
  constructor
  · rw [List.count_eq_zero]
    intro hmem
    have hmm : lowChar '(' ∈ kWhere.map lowChar := by
      rw [← heq]
      exact List.mem_map_of_mem _ hmem
    exact absurd hmm (by decide)
  · rw [List.count_eq_zero]
    intro hmem
    have hmm : lowChar ')' ∈ kWhere.map lowChar := by
      rw [← heq]
      exact List.mem_map_of_mem _ hmem
    exact absurd hmm (by decide)

/-- C9: on a balanced draft query with exactly one `WHERE`, no `ORDER BY`
and no `LIMIT`, the applied patch (active seniority constraints, keyword
absent) yields a query with one more `(` than `)`: the group opened around
the original filter clause is never re-closed. -/
theorem c9_theorem (fb : List ProfileFeedback) (sql p0 p1 : List Char)
    (hact : 2 ≤ seniorMentionCount fb)
    (habsent : hasSeniorityKeyword (toLowerJS sql) = false)
    (hsplit : splitWhereI sql = [p0, p1])
    (hol : hasOrderLimit sql = false)
    (hbal : sql.count '(' = sql.count ')') :
    (enforceCriticalFilters (extractCriticalFilters fb) sql).count '(' =
      (enforceCriticalFilters (extractCriticalFilters fb) sql).count ')' + 1 := by
  have hactive : ((extractCriticalFilters fb).any fun f => containsSubstr f kSeniority) = true := by
    rw [extractCriticalFilters_eq, if_pos hact]
    simp [show containsSubstr kFilterSenior1 kSeniority = true from by decide]
  rw [enforce_patch _ sql p0 p1 hactive habsent hsplit]
  obtain ⟨m, hsql, hmci, hmlen, _⟩ := splitWhereI_two hsplit
  have hol2 : hasMatchNorm lowChar kOrderBy sql = false ∧
      hasMatchNorm lowChar kLimit sql = false := by
    cases h1 : hasMatchNorm lowChar kOrderBy sql with
    | true => rw [hasOrderLimit, h1] at hol; simp at hol
    | false =>
      cases h2 : hasMatchNorm lowChar kLimit sql with
      | true => rw [hasOrderLimit, h2] at hol; simp at hol
      | false => exact ⟨rfl, rfl⟩
  have hp0ob : hasMatchNorm lowChar kOrderBy p0 = false := by
    by_contra h'
    rw [Bool.not_eq_false] at h'
    have hsq := hasMatchNorm_append_right (m ++ p1) h'
    rw [← List.append_assoc, ← hsql] at hsq
    rw [hsq] at hol2
    exact absurd hol2.1 (by simp)
  have hp0li : hasMatchNorm lowChar kLimit p0 = false := by
    by_contra h'
    rw [Bool.not_eq_false] at h'
    have hsq := hasMatchNorm_append_right (m ++ p1) h'
    rw [← List.append_assoc, ← hsql] at hsq
    rw [hsq] at hol2
    exact absurd hol2.2 (by simp)
  have hp1ob : hasMatchNorm lowChar kOrderBy p1 = false := by
    by_contra h'
    rw [Bool.not_eq_false] at h'
    have hsq := hasMatchNorm_append_left (p0 ++ m) h'
    rw [← hsql] at hsq
    rw [hsq] at hol2
    exact absurd hol2.1 (by simp)
  have hp1li : hasMatchNorm lowChar kLimit p1 = false := by
    by_contra h'
    rw [Bool.not_eq_false] at h'
    have hsq := hasMatchNorm_append_left (p0 ++ m) h'
    rw [← hsql] at hsq
    rw [hsq] at hol2
    exact absurd hol2.2 (by simp)
  have hp0all : ∀ j, j < p0.length → matchOL (p0.drop j ++ (kSeniorityPatch ++ p1)) = false := by
    intro j hj
    unfold matchOL
    rw [no_start_in_pre _ hp0ob
      (fun k hk0 hk => tailSafe_elim kOrderBy tailSafe_orderBy (by decide) p1 k hk0 hk) j hj]
    rw [no_start_in_pre _ hp0li
      (fun k hk0 hk => tailSafe_elim kLimit tailSafe_limit (by decide) p1 k hk0 hk) j hj]
    rfl
  have hstep1 : replaceOrderLimit (p0 ++ kSeniorityPatch ++ p1) =
      p0 ++ (kSeniorityPatch ++ replaceOrderLimit p1) := by
    rw [List.append_assoc]
    rw [replaceOrderLimit_append p0 _ hp0all]
    rw [replaceOrderLimit_patch p1]
  have hp1id : replaceOrderLimit p1 = p1 := by
    apply replaceOrderLimit_id
    intro j
    apply matchOL_drop_false
    rw [hasOrderLimit, hp1ob, hp1li]
    rfl
  rw [hstep1, hp1id]
  have hmp := ci_where_no_paren hmci hmlen
  have hins1 : kSeniorityPatch.count '(' = 3 := by decide
  have hins2 : kSeniorityPatch.count ')' = 2 := by decide
  rw [hsql] at hbal
  simp [List.count_append, hmp.1, hmp.2, hins1, hins2] at hbal ⊢
  omega

/-- Witness for C9 at a concrete balanced one-`WHERE` query. -/
theorem c9_witness :
    (enforceCriticalFilters (extractCriticalFilters fbTooSenior) kC9Sql).count '(' =
      (enforceCriticalFilters (extractCriticalFilters fbTooSenior) kC9Sql).count ')' + 1 :=
  c9_theorem fbTooSenior kC9Sql kC9P0 kC9P1 (by decide) (by decide) (by decide)
    (by decide) (by decide)

/-! ## Idempotence of the Constraint Enforcer -/

/-- With no seniority directive among the filters, the enforcer is the
identity. -/
theorem enforce_inactive (fs : List (List Char)) (sql : List Char)
    (h : (fs.any fun f => containsSubstr f kSeniority) = false) :
    enforceCriticalFilters fs sql = sql := by
  unfold enforceCriticalFilters
  by_cases hfs : 0 < fs.length
  · rw [if_pos hfs, h]
    simp
  · rw [if_neg hfs]

/-- When the split does not yield exactly two parts, the enforcer is the
identity. -/
theorem enforce_no_two (fs : List (List Char)) (sql : List Char)
    (h : ∀ p0 p1, splitWhereI sql ≠ [p0, p1]) :
    enforceCriticalFilters fs sql = sql := by
  unfold enforceCriticalFilters
  by_cases hfs : 0 < fs.length
  · rw [if_pos hfs]
    by_cases hcond : ((fs.any fun f => containsSubstr f kSeniority) &&
        !(fs.any fun f =>
          containsSubstr f kSeniority && hasSeniorityKeyword (toLowerJS sql))) = true
    · rw [if_pos hcond]
      rcases hsp : splitWhereI sql with _ | ⟨a, _ | ⟨b, _ | ⟨c, l⟩⟩⟩
      · rfl
      · rfl
      · exact absurd hsp (h a b)
      · rfl
    · rw [if_neg hcond]
  · rw [if_neg hfs]

/-- The Constraint Enforcer is idempotent: its output always passes its
own keyword check, so a second run leaves the query unchanged. -/
theorem enforce_idem (fs : List (List Char)) (sql : List Char) :
    enforceCriticalFilters fs (enforceCriticalFilters fs sql) =
      enforceCriticalFilters fs sql := by
  by_cases hact : (fs.any fun f => containsSubstr f kSeniority) = true
  · by_cases hkey : hasSeniorityKeyword (toLowerJS sql) = true
    · have h1 := enforce_keyword_present fs sql hkey
      rw [h1]
      exact h1
    · have hkey' : hasSeniorityKeyword (toLowerJS sql) = false := by
        simpa using hkey
      by_cases h2 : ∃ p0 p1, splitWhereI sql = [p0, p1]
      · obtain ⟨p0, p1, hsp⟩ := h2
        have h1 := enforce_patch fs sql p0 p1 hact hkey' hsp
        rw [h1]
        apply enforce_keyword_present
        have hest : containsSubstr
            (toLowerJS (replaceOrderLimit (p0 ++ kSeniorityPatch ++ p1))) kEstagiario = true := by
          rw [containsSubstr_toLower _ _ (by decide), List.append_assoc]
          exact estag_in_replace p0 p1
        unfold hasSeniorityKeyword
        rw [hest]
        rfl
      · push_neg at h2
        have h1 := enforce_no_two fs sql h2
        rw [h1]
        exact h1
  · have hact' : (fs.any fun f => containsSubstr f kSeniority) = false := by
      simpa using hact
    have h1 := enforce_inactive fs sql hact'
    rw [h1]
    exact h1

/-! ## Shape lemmas for the turn's event trace -/

/-- The pre-draft events contain no candidate-query execution. -/
theorem preEvents_no_main (hist : List Msg) (fb : List ProfileFeedback) (q : List Char) :
    Event.db QueryKind.main q ∉ preEvents hist fb := by
  intro hmem
  unfold preEvents at hmem
  rcases List.mem_append.mp hmem with h' | h'
  · rcases List.mem_append.mp h' with h'' | h''
    · by_cases hc : 2 ≤ (fb.filter (fun f => f.interesting)).length
      · rw [if_pos hc] at h''
        simp at h''
      · rw [if_neg hc] at h''
        simp at h''
    · by_cases hc : 6 < hist.length
      · rw [if_pos hc] at h''
        simp at h''
      · rw [if_neg hc] at h''
        simp at h''
  · simp at h'

/-- Event counts of the pre-draft events: one main drafting call, no
relaxation call, no main/retry/count execution, at most one data-store
call (the details lookup). -/
theorem preEvents_counts (hist : List Msg) (fb : List ProfileFeedback) :
    (preEvents hist fb).countP isDraftCall = 1 ∧
    (preEvents hist fb).countP isRetryDraftCall = 0 ∧
    (preEvents hist fb).countP isMainExec = 0 ∧
    (preEvents hist fb).countP isRetryExec = 0 ∧
    (preEvents hist fb).countP isCountExec = 0 ∧
    (preEvents hist fb).countP isDbExec ≤ 1 := by
  unfold preEvents
  by_cases h1 : 2 ≤ (fb.filter (fun f => f.interesting)).length <;>
    by_cases h2 : 6 < hist.length <;>
      simp [h1, h2, List.countP_append, List.countP_cons, isDraftCall, isRetryDraftCall,
        isMainExec, isRetryExec, isCountExec, isDbExec, List.countP_nil]

/-- The relaxation stage emits one of three event shapes: nothing, one
backend call, or one backend call followed by one retry execution. -/
theorem relaxStage_events (llm : LlmSite → List Char) (db : List Char → List Row)
    (d : Draft) (s : List Char) (data : List Row) :
    (relaxStage llm db d s data).1 = [] ∨
    (relaxStage llm db d s data).1 = [Event.llm LlmSite.retry] ∨
    ∃ rs, (relaxStage llm db d s data).1 =
      [Event.llm LlmSite.retry, Event.db QueryKind.retry rs] := by
  unfold relaxStage
  split
  · split
    · exact Or.inr (Or.inl rfl)
    · split
      · exact Or.inr (Or.inl rfl)
      · split
        · exact Or.inr (Or.inl rfl)
        · split
          · exact Or.inr (Or.inl rfl)
          · split
            · exact Or.inr (Or.inr ⟨_, rfl⟩)
            · exact Or.inr (Or.inr ⟨_, rfl⟩)
  · exact Or.inl rfl

/-- The count stage emits at most one count execution. -/
theorem countStage_events (db : List Char → List Row) (d : Draft) (data : List Row) :
    (countStage db d data).1 = [] ∨
    ∃ cs, (countStage db d data).1 = [Event.db QueryKind.count cs] := by
  unfold countStage
  split
  · exact Or.inl rfl
  · split
    · exact Or.inl rfl
    · split
      · exact Or.inr ⟨_, rfl⟩
      · split
        · exact Or.inr ⟨_, rfl⟩
        · exact Or.inr ⟨_, rfl⟩

/-- Event counts of the relaxation stage. -/
theorem relaxStage_counts (llm : LlmSite → List Char) (db : List Char → List Row)
    (d : Draft) (s : List Char) (data : List Row) :
    (relaxStage llm db d s data).1.countP isDraftCall = 0 ∧
    (relaxStage llm db d s data).1.countP isRetryDraftCall ≤ 1 ∧
    (relaxStage llm db d s data).1.countP isMainExec = 0 ∧
    (relaxStage llm db d s data).1.countP isRetryExec ≤ 1 ∧
    (relaxStage llm db d s data).1.countP isCountExec = 0 ∧
    (relaxStage llm db d s data).1.countP isDbExec ≤ 1 := by
  rcases relaxStage_events llm db d s data with h | h | ⟨rs, h⟩ <;>
    rw [h] <;>
      simp [List.countP_cons, List.countP_nil, isDraftCall, isRetryDraftCall, isMainExec,
        isRetryExec, isCountExec, isDbExec]

/-- Event counts of the count stage. -/
theorem countStage_counts (db : List Char → List Row) (d : Draft) (data : List Row) :
    (countStage db d data).1.countP isDraftCall = 0 ∧
    (countStage db d data).1.countP isRetryDraftCall = 0 ∧
    (countStage db d data).1.countP isMainExec = 0 ∧
    (countStage db d data).1.countP isRetryExec = 0 ∧
    (countStage db d data).1.countP isCountExec ≤ 1 ∧
    (countStage db d data).1.countP isDbExec ≤ 1 := by
  rcases countStage_events db d data with h | ⟨cs, h⟩ <;>
    rw [h] <;>
      simp [List.countP_cons, List.countP_nil, isDraftCall, isRetryDraftCall, isMainExec,
        isRetryExec, isCountExec, isDbExec]

/-- Evaluation of `postDraft` under known stage outcomes. -/
theorem postDraft_eq (llm : LlmSite → List Char) (db : List Char → List Row)
    (hist : List Msg) (fb : List ProfileFeedback) (draft : Draft) (sqlE : List Char)
    (revs : List Event) (d2 : Draft) (sql2 : List Char) (data2 : List Row)
    (cevs : List Event) (total : Int)
    (hr : relaxStage llm db draft sqlE (db sqlE) = (revs, d2, sql2, data2))
    (hc : countStage db d2 data2 = (cevs, total)) :
    postDraft llm db hist fb draft sqlE =
      (preEvents hist fb ++ [Event.db QueryKind.main sqlE] ++ revs ++ cevs,
       Except.ok
         { query := sql2, explanation := d2.explanation, data := data2, totalRows := total,
           assistantMessage := d2.assistantMessage, searchCriteria := d2.searchCriteria }) := by
  unfold postDraft
  simp only [hr]
  simp only [hc]

/-- A drafted turn always returns a result, never an error. -/
theorem postDraft_ok (llm : LlmSite → List Char) (db : List Char → List Row)
    (hist : List Msg) (fb : List ProfileFeedback) (draft : Draft) (sqlE : List Char) :
    isErrResult (postDraft llm db hist fb draft sqlE).2 = false := by
  rcases hr : relaxStage llm db draft sqlE (db sqlE) with ⟨revs, d2, sql2, data2⟩
  rcases hc : countStage db d2 data2 with ⟨cevs, total⟩
  rw [postDraft_eq llm db hist fb draft sqlE revs d2 sql2 data2 cevs total hr hc]
  rfl

/-- Case analysis of one turn: either the draft is fatal (trace is the
pre-draft events, the turn errors) or the draft succeeded and the turn is
the post-draft pipeline on the enforced query. -/
theorem cs_shape (llm : LlmSite → List Char) (db : List Char → List Row)
    (msg : List Char) (hist : List Msg) (fb : List ProfileFeedback) :
    ((conversationalSearch llm db msg hist fb).1 = preEvents hist fb ∧
      isErrResult (conversationalSearch llm db msg hist fb).2 = true ∧
      fatalDraft (trimJS (llm LlmSite.draft)) = true) ∨
    (∃ draft s, parseDraftMain (trimJS (llm LlmSite.draft)) = some draft ∧
      draft.sql = some s ∧ s.isEmpty = false ∧
      conversationalSearch llm db msg hist fb =
        postDraft llm db hist fb draft
          (enforceCriticalFilters (extractCriticalFilters fb) s) ∧
      fatalDraft (trimJS (llm LlmSite.draft)) = false) := by
  unfold conversationalSearch
  by_cases h1 : (trimJS (llm LlmSite.draft)).isEmpty = true
  · rw [if_pos h1]
    exact Or.inl ⟨rfl, rfl, by simp [fatalDraft, h1]⟩
  · rw [if_neg h1]
    have h1' : (trimJS (llm LlmSite.draft)).isEmpty = false := by simpa using h1
    cases hp : parseDraftMain (trimJS (llm LlmSite.draft)) with
    | none =>
      refine Or.inl ⟨?_, ?_, ?_⟩
      · simp [hp]
      · simp [hp, isErrResult]
      · simp [fatalDraft, h1', hp]
    | some draft =>
      cases hs : draft.sql with
      | none =>
        refine Or.inl ⟨?_, ?_, ?_⟩
        · simp [hp, hs]
        · simp [hp, hs, isErrResult]
        · simp [fatalDraft, h1', hp, hs]
      | some s =>
        by_cases he : s.isEmpty = true
        · refine Or.inl ⟨?_, ?_, ?_⟩
          · simp [hp, hs, he]
          · simp [hp, hs, he, isErrResult]
          · simp [fatalDraft, h1', hp, hs, he]
        · have he' : s.isEmpty = false := by simpa using he
          refine Or.inr ⟨draft, s, rfl, hs, he', ?_, ?_⟩
          · simp [hp, hs, he']
          · simp [fatalDraft, h1', hp, hs, he']

/-! ## Claim C2 — bounded retries and query executions -/

/-- C2 as amended: per turn there is at most one relaxation drafting call,
at most one execution of the enforced original query, at most one
execution of a relaxed query (so at most two candidate-query executions),
and at most four data-store calls in total (details lookup and count query
included). -/
theorem c2_theorem (llm : LlmSite → List Char) (db : List Char → List Row)
    (msg : List Char) (hist : List Msg) (fb : List ProfileFeedback) :
    (conversationalSearch llm db msg hist fb).1.countP isRetryDraftCall ≤ 1 ∧
    (conversationalSearch llm db msg hist fb).1.countP isMainExec ≤ 1 ∧
    (conversationalSearch llm db msg hist fb).1.countP isRetryExec ≤ 1 ∧
    (conversationalSearch llm db msg hist fb).1.countP isDbExec ≤ 4 := by
  rcases cs_shape llm db msg hist fb with ⟨htr, _, _⟩ | ⟨draft, s, _, _, _, heq, _⟩
  · rw [htr]
    have hp := preEvents_counts hist fb
    exact ⟨by omega, by omega, by omega, by omega⟩
  · rw [heq]
    rcases hr : relaxStage llm db draft (enforceCriticalFilters (extractCriticalFilters fb) s)
        (db (enforceCriticalFilters (extractCriticalFilters fb) s)) with ⟨revs, d2, sql2, data2⟩
    rcases hc : countStage db d2 data2 with ⟨cevs, total⟩
    rw [postDraft_eq llm db hist fb draft _ revs d2 sql2 data2 cevs total hr hc]
    have h1 := preEvents_counts hist fb
    have h2 := relaxStage_counts llm db draft
      (enforceCriticalFilters (extractCriticalFilters fb) s)
      (db (enforceCriticalFilters (extractCriticalFilters fb) s))
    simp only [hr] at h2
    have h3 := countStage_counts db d2 data2
    simp only [hc] at h3
    obtain ⟨h1a, h1b, h1c, h1d, h1e, h1f⟩ := h1
    obtain ⟨h2a, h2b, h2c, h2d, h2e, h2f⟩ := h2
    obtain ⟨h3a, h3b, h3c, h3d, h3e, h3f⟩ := h3
    refine ⟨?_, ?_, ?_, ?_⟩ <;>
      simp [List.countP_append, List.countP_cons, List.countP_nil, isRetryDraftCall,
        isMainExec, isRetryExec, isDbExec, h1b, h1c, h1d, h1f, h2b, h2c, h2d, h2f,
        h3b, h3c, h3d, h3f] <;>
      omega

/-- C2 as frozen is false: in this turn (two interesting feedback entries,
an empty original result, an empty relaxed result, a count query) the
engine makes four query-execution calls against the data store, not at
most two. -/
theorem c2_counterexample :
    (conversationalSearch llmC2 dbC2 [] [] fbInteresting2).1.countP isDbExec = 4 ∧
    ¬((conversationalSearch llmC2 dbC2 [] [] fbInteresting2).1.countP isDbExec ≤ 2) := by
  refine ⟨by decide, by decide⟩

/-! ## Claim C6 — fatal-draft aborts -/

/-- C6 as amended: the turn aborts exactly when the trimmed backend
response is empty, yields no extractable payload, or lacks a (non-empty)
`sql` field; on abort no candidate/count query executes and no relaxation
drafting call occurs (the trace is exactly the pre-draft events, which may
include the interesting-profile details lookup), and exactly one drafting
call was made. -/
theorem c6_theorem (llm : LlmSite → List Char) (db : List Char → List Row)
    (msg : List Char) (hist : List Msg) (fb : List ProfileFeedback) :
    (isErrResult (conversationalSearch llm db msg hist fb).2 =
      fatalDraft (trimJS (llm LlmSite.draft))) ∧
    (fatalDraft (trimJS (llm LlmSite.draft)) = true →
      (conversationalSearch llm db msg hist fb).1 = preEvents hist fb ∧
      (conversationalSearch llm db msg hist fb).1.countP isMainExec = 0 ∧
      (conversationalSearch llm db msg hist fb).1.countP isRetryExec = 0 ∧
      (conversationalSearch llm db msg hist fb).1.countP isCountExec = 0 ∧
      (conversationalSearch llm db msg hist fb).1.countP isDraftCall = 1 ∧
      (conversationalSearch llm db msg hist fb).1.countP isRetryDraftCall = 0) := by
  rcases cs_shape llm db msg hist fb with ⟨htr, herr, hfat⟩ | ⟨draft, s, _, _, _, heq, hfat⟩
  · obtain ⟨hp1, hp2, hp3, hp4, hp5, _⟩ := preEvents_counts hist fb
    constructor
    · rw [herr, hfat]
    · intro _
      rw [htr]
      exact ⟨rfl, hp3, hp4, hp5, hp1, hp2⟩
  · constructor
    · rw [heq, hfat, postDraft_ok]
    · intro hcontra
      rw [hfat] at hcontra
      exact absurd hcontra (by simp)

/-- C6 as frozen is false on its "without executing any data-retrieval
query" part: with two interesting feedback entries an unparsable draft
still aborts the turn, but the profile-details query has already been
executed against the data store. -/
theorem c6_counterexample :
    isErrResult (conversationalSearch llmC6 dbEmpty [] [] fbInteresting2).2 = true ∧
    (conversationalSearch llmC6 dbEmpty [] [] fbInteresting2).1.countP isDbExec = 1 := by
  refine ⟨by decide, by decide⟩

/-- Witness for C6 at the concrete unparsable-draft turn. -/
theorem c6_witness :
    (conversationalSearch llmC6 dbEmpty [] [] fbInteresting2).1 =
      preEvents [] fbInteresting2 ∧
    (conversationalSearch llmC6 dbEmpty [] [] fbInteresting2).1.countP isMainExec = 0 ∧
    (conversationalSearch llmC6 dbEmpty [] [] fbInteresting2).1.countP isRetryExec = 0 ∧
    (conversationalSearch llmC6 dbEmpty [] [] fbInteresting2).1.countP isCountExec = 0 ∧
    (conversationalSearch llmC6 dbEmpty [] [] fbInteresting2).1.countP isDraftCall = 1 ∧
    (conversationalSearch llmC6 dbEmpty [] [] fbInteresting2).1.countP isRetryDraftCall = 0 :=
  (c6_theorem llmC6 dbEmpty [] [] fbInteresting2).2 (by decide)

/-! ## Claim C1 — which executed queries were checked -/

/-- C1 as amended: every execution of the (original) drafted candidate
query runs the Constraint Enforcer's output, so that query is invariant
under a further enforcement run ("has been checked"). The relaxed draft's
query is executed as parsed, without such a check (see the
counterexample). -/
theorem c1_theorem (llm : LlmSite → List Char) (db : List Char → List Row)
    (msg : List Char) (hist : List Msg) (fb : List ProfileFeedback) (q : List Char)
    (hq : Event.db QueryKind.main q ∈ (conversationalSearch llm db msg hist fb).1) :
    enforceCriticalFilters (extractCriticalFilters fb) q = q := by
  rcases cs_shape llm db msg hist fb with ⟨htr, _, _⟩ | ⟨draft, s, _, _, _, heq, _⟩
  · rw [htr] at hq
    exact absurd hq (preEvents_no_main hist fb q)
  · rw [heq] at hq
    rcases hr : relaxStage llm db draft (enforceCriticalFilters (extractCriticalFilters fb) s)
        (db (enforceCriticalFilters (extractCriticalFilters fb) s)) with ⟨revs, d2, sql2, data2⟩
    rcases hc : countStage db d2 data2 with ⟨cevs, total⟩
    rw [postDraft_eq llm db hist fb draft _ revs d2 sql2 data2 cevs total hr hc] at hq
    simp only [List.mem_append] at hq
    rcases hq with ((hq | hq) | hq) | hq
    · exact absurd hq (preEvents_no_main hist fb q)
    · have hqe : q = enforceCriticalFilters (extractCriticalFilters fb) s := by
        simpa using hq
      rw [hqe]
      exact enforce_idem _ _
    · rcases relaxStage_events llm db draft
          (enforceCriticalFilters (extractCriticalFilters fb) s)
          (db (enforceCriticalFilters (extractCriticalFilters fb) s)) with h | h | ⟨rs, h⟩ <;>
        (simp only [hr] at h; subst h; simp at hq)
    · rcases countStage_events db d2 data2 with h | ⟨cs, h⟩ <;>
        (simp only [hc] at h; subst h; simp at hq)

set_option maxRecDepth 40000 in
/-- C1 as frozen is false: in this turn the relaxed draft's query is
executed against the data store although it was never checked — running
the Constraint Enforcer on it would change it (the mandatory seniority
restriction is missing from it). -/
theorem c1_counterexample :
    Event.db QueryKind.retry kC1RetrySql ∈
      (conversationalSearch llmC1 dbC1 [] [] fbTooSenior).1 ∧
    enforceCriticalFilters (extractCriticalFilters fbTooSenior) kC1RetrySql ≠ kC1RetrySql := by
  refine ⟨by decide, by decide⟩

set_option maxRecDepth 40000 in
/-- Witness for C1 at the concrete turn: the executed original query is
enforcement-invariant. -/
theorem c1_witness :
    enforceCriticalFilters (extractCriticalFilters fbTooSenior)
      (enforceCriticalFilters (extractCriticalFilters fbTooSenior) kC1OrigSql) =
    enforceCriticalFilters (extractCriticalFilters fbTooSenior) kC1OrigSql :=
  c1_theorem llmC1 dbC1 [] [] fbTooSenior
    (enforceCriticalFilters (extractCriticalFilters fbTooSenior) kC1OrigSql) (by decide)

/-! ## Claim C7 — failed relaxation keeps the original empty result -/

/-- C7: when the enforced original query returns no rows and the relaxed
draft's query also returns no rows, the turn ends with the original
(unrelaxed) draft: zero rows, the enforced original query text, the
original explanation and assistant message, and exactly one relaxation
drafting call and one relaxed execution — no second retry. -/
theorem c7_theorem (llm : LlmSite → List Char) (db : List Char → List Row)
    (msg : List Char) (hist : List Msg) (fb : List ProfileFeedback)
    (d : Draft) (s : List Char) (rd : Draft) (rs : List Char)
    (hd : parseDraftMain (trimJS (llm LlmSite.draft)) = some d)
    (hds : d.sql = some s) (hsne : s.isEmpty = false)
    (hmain : db (enforceCriticalFilters (extractCriticalFilters fb) s) = [])
    (hrc : (trimJS (llm LlmSite.retry)).isEmpty = false)
    (hrd : parseDraftRetry (trimJS (llm LlmSite.retry)) = some rd)
    (hrs : rd.sql = some rs) (hrsne : rs.isEmpty = false)
    (hretry : db rs = []) :
    (conversationalSearch llm db msg hist fb).2 =
      Except.ok
        { query := enforceCriticalFilters (extractCriticalFilters fb) s,
          explanation := d.explanation, data := [],
          totalRows := (countStage db d []).2,
          assistantMessage := d.assistantMessage, searchCriteria := d.searchCriteria } ∧
    (conversationalSearch llm db msg hist fb).1.countP isRetryDraftCall = 1 ∧
    (conversationalSearch llm db msg hist fb).1.countP isRetryExec = 1 := by
  rcases cs_shape llm db msg hist fb with ⟨_, _, hfat⟩ | ⟨draft, s', hp, hs', hne', heq, _⟩
  · exfalso
    have hce : (trimJS (llm LlmSite.draft)).isEmpty = false := by
      by_contra hx
      rw [Bool.not_eq_false] at hx
      have hnil : trimJS (llm LlmSite.draft) = [] := by
        cases hval : trimJS (llm LlmSite.draft) with
        | nil => rfl
        | cons a l => rw [hval] at hx; simp at hx
      rw [hnil] at hd
      rw [show parseDraftMain ([] : List Char) = none from by decide] at hd
      simp at hd
    simp [fatalDraft, hce, hd, hds, hsne] at hfat
  · have hdd : draft = d := Option.some.inj (hp.symm.trans hd)
    subst hdd
    have hss : s' = s := Option.some.inj (hs'.symm.trans hds)
    subst hss
    rw [heq]
    have hr : relaxStage llm db draft (enforceCriticalFilters (extractCriticalFilters fb) s')
        (db (enforceCriticalFilters (extractCriticalFilters fb) s')) =
        ([Event.llm LlmSite.retry, Event.db QueryKind.retry rs], draft,
          enforceCriticalFilters (extractCriticalFilters fb) s', []) := by
      rw [hmain]
      unfold relaxStage
      rw [if_pos (by simp)]
      rw [if_neg (by simp [hrc])]
      simp only [hrd, hrs]
      rw [if_neg (by simp [hrsne])]
      rw [hretry]
      rw [if_pos (by simp)]
    rcases hc : countStage db draft [] with ⟨cevs, total⟩
    rw [postDraft_eq llm db hist fb draft _ _ _ _ _ _ _ hr hc]
    obtain ⟨hp1, hp2, hp3, hp4, hp5, hp6⟩ := preEvents_counts hist fb
    have h3 := countStage_counts db draft []
    simp only [hc] at h3
    obtain ⟨h3a, h3b, h3c, h3d, h3e, h3f⟩ := h3
    refine ⟨by simp [hc], ?_, ?_⟩
    · simp [List.countP_append, List.countP_cons, List.countP_nil, isRetryDraftCall,
        hp2, h3b]
    · simp [List.countP_append, List.countP_cons, List.countP_nil, isRetryExec,
        hp4, h3d]

set_option maxRecDepth 40000 in
/-- Witness for C7 at a concrete turn whose two candidate queries both
return no rows. -/
theorem c7_witness :
    (conversationalSearch llmC7 dbEmpty [] [] []).2 =
      Except.ok
        { query := enforceCriticalFilters (extractCriticalFilters []) kC7Sql,
          explanation := (draftOfJson ((parseJson kC7DraftContent).getD Json.null)).explanation,
          data := [],
          totalRows :=
            (countStage dbEmpty (draftOfJson ((parseJson kC7DraftContent).getD Json.null)) []).2,
          assistantMessage :=
            (draftOfJson ((parseJson kC7DraftContent).getD Json.null)).assistantMessage,
          searchCriteria :=
            (draftOfJson ((parseJson kC7DraftContent).getD Json.null)).searchCriteria } ∧
    (conversationalSearch llmC7 dbEmpty [] [] []).1.countP isRetryDraftCall = 1 ∧
    (conversationalSearch llmC7 dbEmpty [] [] []).1.countP isRetryExec = 1 :=
  c7_theorem llmC7 dbEmpty [] [] []
    (draftOfJson ((parseJson kC7DraftContent).getD Json.null)) kC7Sql
    (draftOfJson ((parseJson kC7RetryContent).getD Json.null)) kC7RetrySql
    (by decide) (by decide) (by decide) rfl (by decide) (by decide) (by decide)
    (by decide) rfl
